import Mathlib

/-!
Verification of the changedetection.io request-logger core
(`models.py`, `plugin_orm.py`) via a shallow embedding in Lean 4.

Conventions of the embedding:
* Python strings are Lean `String`; byte strings are `List Nat` (each < 256).
* `datetime` values are abstract instants, modelled as `Nat` parameters
  (`now`, `today`) supplied by the caller.
* Python attribute truthiness (`if x:`) on optional strings / ints is made
  explicit via `pyTruthyStr` / `pyTruthyNat`.
* Each database table is a `Table α`: a row list plus the autoincrement
  counter; a SQLAlchemy session mutation of a queried object is modelled by
  replacing the first matching row in the list.
-/

namespace Reqlog

/-- Python string slicing `s[:n]` (by characters). -/
def strTake (s : String) (n : Nat) : String := String.mk (s.data.take n)

/-- Python truthiness of an optional string (`None` and `""` are falsy). -/
def pyTruthyStr : Option String → Bool
  | none => false
  | some s => s != ""

/-- Python truthiness of an optional integer (`None` and `0` are falsy). -/
def pyTruthyNat : Option Nat → Bool
  | none => false
  | some n => n != 0

/-- Character-level test that `pre` is an initial segment of `s`. -/
def listIsInit : List Char → List Char → Bool
  | [], _ => true
  | _ :: _, [] => false
  | p :: ps, c :: cs => p == c && listIsInit ps cs

/-- Python `s.startswith(pre)` (by characters). -/
def pyStartsWith (s pre : String) : Bool := listIsInit pre.data s.data

/-- Replace the first element satisfying `p` by its image under `f`
(the list-model of mutating the object returned by `query(...).first()`). -/
def updateFirst (p : α → Bool) (f : α → α) : List α → List α
  | [] => []
  | x :: xs => if p x then f x :: xs else x :: updateFirst p f xs

/-! ### MD5 (used by `get_or_create_watch` for the `url_hash` column) -/

/-- MD5 round constants `K[i] = floor(2^32 * |sin(i+1)|)`. -/
def md5K : List Nat := [
  3614090360, 3905402710, 606105819, 3250441966, 4118548399, 1200080426, 2821735955, 4249261313,
  1770035416, 2336552879, 4294925233, 2304563134, 1804603682, 4254626195, 2792965006, 1236535329,
  4129170786, 3225465664, 643717713, 3921069994, 3593408605, 38016083, 3634488961, 3889429448,
  568446438, 3275163606, 4107603335, 1163531501, 2850285829, 4243563512, 1735328473, 2368359562,
  4294588738, 2272392833, 1839030562, 4259657740, 2763975236, 1272893353, 4139469664, 3200236656,
  681279174, 3936430074, 3572445317, 76029189, 3654602809, 3873151461, 530742520, 3299628645,
  4096336452, 1126891415, 2878612391, 4237533241, 1700485571, 2399980690, 4293915773, 2240044497,
  1873313359, 4264355552, 2734768916, 1309151649, 4149444226, 3174756917, 718787259, 3951481745]

/-- MD5 per-round left-rotation amounts. -/
def md5S : List Nat := [7, 12, 17, 22, 7, 12, 17, 22, 7, 12, 17, 22, 7, 12, 17, 22,
  5, 9, 14, 20, 5, 9, 14, 20, 5, 9, 14, 20, 5, 9, 14, 20,
  4, 11, 16, 23, 4, 11, 16, 23, 4, 11, 16, 23, 4, 11, 16, 23,
  6, 10, 15, 21, 6, 10, 15, 21, 6, 10, 15, 21, 6, 10, 15, 21]

/-- Bitwise complement on 32-bit words (represented as `Nat < 2^32`). -/
def bnot32 (x : Nat) : Nat := 4294967295 ^^^ x

/-- Left-rotation of a 32-bit word. -/
def rotl32 (x s : Nat) : Nat :=
  ((x <<< s) % 4294967296) ||| ((x % 4294967296) >>> (32 - s))

/-- Group a little-endian byte list into 32-bit words (4 bytes each). -/
def bytesToWords : List Nat → List Nat
  | b0 :: b1 :: b2 :: b3 :: rest =>
      (b0 + b1 * 256 + b2 * 65536 + b3 * 16777216) :: bytesToWords rest
  | _ => []

/-- `k`-byte little-endian representation of `n`. -/
def natLEBytes (n : Nat) : Nat → List Nat
  | 0 => []
  | k + 1 => n % 256 :: natLEBytes (n / 256) k

/-- One MD5 round: `st` is the `(A, B, C, D)` word tuple, `m` the 16
message words of the current block, `i` the round index. -/
def md5Step (m : List Nat) (st : Nat × Nat × Nat × Nat) (i : Nat) :
    Nat × Nat × Nat × Nat :=
  let a := st.1
  let b := st.2.1
  let c := st.2.2.1
  let d := st.2.2.2
  let f :=
    if i < 16 then (b &&& c) ||| (bnot32 b &&& d)
    else if i < 32 then (d &&& b) ||| (bnot32 d &&& c)
    else if i < 48 then b ^^^ c ^^^ d
    else c ^^^ (b ||| bnot32 d)
  let g :=
    if i < 16 then i
    else if i < 32 then (5 * i + 1) % 16
    else if i < 48 then (3 * i + 5) % 16
    else (7 * i) % 16
  let tmp := (f + a + md5K.getD i 0 + m.getD g 0) % 4294967296
  (d, (b + rotl32 tmp (md5S.getD i 0)) % 4294967296, b, c)

/-- Process one 64-byte block, updating the running digest state. -/
def md5Block (st : Nat × Nat × Nat × Nat) (chunk : List Nat) :
    Nat × Nat × Nat × Nat :=
  let m := bytesToWords chunk
  let r := (List.range 64).foldl (md5Step m) st
  ((st.1 + r.1) % 4294967296, (st.2.1 + r.2.1) % 4294967296,
   (st.2.2.1 + r.2.2.1) % 4294967296, (st.2.2.2 + r.2.2.2) % 4294967296)

/-- Split a byte list into 64-byte chunks (fuel-driven for structural
recursion; fuel is instantiated with the list length). -/
def chunks64Go : Nat → List Nat → List (List Nat)
  | 0, _ => []
  | _, [] => []
  | fuel + 1, l => l.take 64 :: chunks64Go fuel (l.drop 64)

def chunks64 (l : List Nat) : List (List Nat) := chunks64Go l.length l

/-- MD5 padding: append `0x80`, zero-pad to 56 mod 64, then the bit length
as a 64-bit little-endian quantity. -/
def md5Pad (msg : List Nat) : List Nat :=
  msg ++ [128] ++ List.replicate ((119 - msg.length % 64) % 64) 0
      ++ natLEBytes ((msg.length * 8) % 18446744073709551616) 8

/-- MD5 digest of a byte list, as 16 bytes. -/
def md5Bytes (msg : List Nat) : List Nat :=
  let st := (chunks64 (md5Pad msg)).foldl md5Block
    (1732584193, 4023233417, 2562383102, 271733878)
  natLEBytes st.1 4 ++ natLEBytes st.2.1 4 ++ natLEBytes st.2.2.1 4
    ++ natLEBytes st.2.2.2 4

/-- Lowercase hexadecimal digit. -/
def hexDig (n : Nat) : Char :=
  if n < 10 then Char.ofNat (48 + n) else Char.ofNat (87 + n)

/-- Lowercase hex string of a byte list. -/
def bytesToHex (bs : List Nat) : String :=
  String.mk (bs.flatMap fun b => [hexDig (b / 16), hexDig (b % 16)])

/-! ### UTF-8 (Python `str.encode('utf-8')` and its inverse) -/

/-- UTF-8 encoding of a single code point. -/
def utf8Char (n : Nat) : List Nat :=
  if n < 128 then [n]
  else if n < 2048 then [192 ||| (n >>> 6), 128 ||| (n &&& 63)]
  else if n < 65536 then
    [224 ||| (n >>> 12), 128 ||| ((n >>> 6) &&& 63), 128 ||| (n &&& 63)]
  else
    [240 ||| (n >>> 18), 128 ||| ((n >>> 12) &&& 63),
     128 ||| ((n >>> 6) &&& 63), 128 ||| (n &&& 63)]

/-- UTF-8 encoding of a string, as a byte list. -/
def utf8Encode (s : String) : List Nat := s.data.flatMap fun c => utf8Char c.toNat

/-- Decode one UTF-8-encoded code point from the head of a byte list;
`none` on malformed input. -/
def utf8DecodeChar : List Nat → Option (Char × List Nat)
  | [] => none
  | b :: rest =>
    if b < 128 then some (Char.ofNat b, rest)
    else if b < 224 then
      match rest with
      | b1 :: rest1 =>
        if 128 ≤ b1 && b1 < 192 then
          some (Char.ofNat (((b - 192) <<< 6) + (b1 - 128)), rest1)
        else none
      | [] => none
    else if b < 240 then
      match rest with
      | b1 :: b2 :: rest2 =>
        if (128 ≤ b1 && b1 < 192) && (128 ≤ b2 && b2 < 192) then
          some (Char.ofNat
            (((b - 224) <<< 12) + ((b1 - 128) <<< 6) + (b2 - 128)), rest2)
        else none
      | _ => none
    else
      match rest with
      | b1 :: b2 :: b3 :: rest3 =>
        if ((128 ≤ b1 && b1 < 192) && (128 ≤ b2 && b2 < 192))
            && (128 ≤ b3 && b3 < 192) then
          some (Char.ofNat
            (((b - 240) <<< 18) + ((b1 - 128) <<< 12)
              + ((b2 - 128) <<< 6) + (b3 - 128)), rest3)
        else none
      | _ => none

/-- UTF-8 decoding loop (fuel-driven; one unit per decoded character). -/
def utf8DecodeGo : Nat → List Nat → Option (List Char)
  | _, [] => some []
  | 0, _ :: _ => none
  | fuel + 1, b :: rest =>
    match utf8DecodeChar (b :: rest) with
    | none => none
    | some (c, rest') => (utf8DecodeGo fuel rest').map fun cs => c :: cs

/-- UTF-8 decoding (inverse of `utf8Encode`); `none` on malformed input. -/
def utf8Decode (l : List Nat) : Option (List Char) := utf8DecodeGo l.length l

/-- `hashlib.md5(s.encode('utf-8')).hexdigest()`. -/
def md5HexOfString (s : String) : String := bytesToHex (md5Bytes (utf8Encode s))

/-! ### JSON for the browser-steps payload

`plugin_orm.py` stores `json.dumps(browser_steps)` (UTF-8 encoded and then
compressed).  Modelled from the spec: the step-script payload is a list of
objects with string fields, so a step is an association list
`List (String × String)`; `jsonDumpSteps` reproduces `json.dumps` output
byte-for-byte for that shape (default separators, `ensure_ascii=True`),
and `jsonLoadsSteps` is `json.loads` restricted to that grammar. -/

/-- One browser step: a JSON object with string keys and string values. -/
abbrev Step := List (String × String)

/-- Four lowercase hex digits (as used in `\uXXXX` escapes). -/
def hex4 (n : Nat) : List Char :=
  [hexDig (n / 4096 % 16), hexDig (n / 256 % 16), hexDig (n / 16 % 16),
   hexDig (n % 16)]

/-- `json.dumps` escaping of one character (`ensure_ascii=True`):
`"` and `\` are backslash-escaped, the five short escapes are used for
backspace/tab/newline/formfeed/carriage-return, printable ASCII is kept
literal, everything else becomes `\uXXXX` (a surrogate pair beyond the
BMP). -/
def escChar (c : Char) : List Char :=
  if c = '"' then ['\\', '"']
  else if c = '\\' then ['\\', '\\']
  else if c.toNat = 8 then ['\\', 'b']
  else if c.toNat = 9 then ['\\', 't']
  else if c.toNat = 10 then ['\\', 'n']
  else if c.toNat = 12 then ['\\', 'f']
  else if c.toNat = 13 then ['\\', 'r']
  else if 32 ≤ c.toNat ∧ c.toNat ≤ 126 then [c]
  else if c.toNat < 65536 then '\\' :: 'u' :: hex4 c.toNat
  else
    ('\\' :: 'u' :: hex4 (55296 + (c.toNat - 65536) / 1024))
      ++ ('\\' :: 'u' :: hex4 (56320 + (c.toNat - 65536) % 1024))

/-- A JSON string literal: quote, escaped characters, quote. -/
def escString (s : String) : List Char :=
  '"' :: (s.data.flatMap escChar ++ ['"'])

/-- `"key": "value"`. -/
def dumpPair (p : String × String) : List Char :=
  escString p.1 ++ ':' :: ' ' :: escString p.2

/-- Remaining members of an object, each preceded by `, `. -/
def dumpPairsRest : List (String × String) → List Char
  | [] => []
  | p :: ps => ',' :: ' ' :: (dumpPair p ++ dumpPairsRest ps)

/-- A JSON object of string pairs. -/
def dumpObj : List (String × String) → List Char
  | [] => ['{', '}']
  | p :: ps => '{' :: (dumpPair p ++ dumpPairsRest ps ++ ['}'])

/-- Remaining elements of the array, each preceded by `, `. -/
def dumpObjsRest : List Step → List Char
  | [] => []
  | o :: os => ',' :: ' ' :: (dumpObj o ++ dumpObjsRest os)

/-- The JSON array of step objects. -/
def dumpArr : List Step → List Char
  | [] => ['[', ']']
  | o :: os => '[' :: (dumpObj o ++ dumpObjsRest os ++ [']'])

/-- `json.dumps(browser_steps)` for a list of string-valued step objects. -/
def jsonDumpSteps (l : List Step) : String := String.mk (dumpArr l)

/-- Value of one hex digit character. -/
def hexVal (c : Char) : Option Nat :=
  if 48 ≤ c.toNat ∧ c.toNat ≤ 57 then some (c.toNat - 48)
  else if 97 ≤ c.toNat ∧ c.toNat ≤ 102 then some (c.toNat - 87)
  else if 65 ≤ c.toNat ∧ c.toNat ≤ 70 then some (c.toNat - 55)
  else none

/-- Resolve the low-surrogate half of a `\\uXXXX\\uXXXX` pair, given the
high surrogate's value `n`. -/
def unescapeUPair (n : Nat) (rest1 : List Char) : Option (Char × List Char) :=
  match rest1 with
  | s1 :: u1 :: e2 :: f2 :: g2 :: h2 :: rest2 =>
    if s1 = '\\' ∧ u1 = 'u' then
      match hexVal e2, hexVal f2, hexVal g2, hexVal h2 with
      | some x2, some y2, some z2, some w2 =>
        let n2 := x2 * 4096 + y2 * 256 + z2 * 16 + w2
        if 56320 ≤ n2 ∧ n2 < 57344 then
          some (Char.ofNat (65536 + (n - 55296) * 1024 + (n2 - 56320)), rest2)
        else none
      | _, _, _, _ => none
    else none
  | _ => none

/-- Resolve a `\\uXXXX` escape (after the `u`), including surrogate
pairs; `none` if invalid. -/
def unescapeU (rest : List Char) : Option (Char × List Char) :=
  match rest with
  | a :: b :: c :: d :: rest1 =>
    match hexVal a, hexVal b, hexVal c, hexVal d with
    | some x, some y, some z, some w =>
      let n := x * 4096 + y * 256 + z * 16 + w
      if 55296 ≤ n ∧ n < 56320 then unescapeUPair n rest1
      else if 56320 ≤ n ∧ n < 57344 then none
      else some (Char.ofNat n, rest1)
    | _, _, _, _ => none
  | _ => none

/-- Resolve one escape sequence standing after a backslash; `none` if
invalid. -/
def unescapeAt (l : List Char) : Option (Char × List Char) :=
  match l with
  | [] => none
  | e :: rest =>
    if e = 'u' then unescapeU rest
    else if e = '"' then some ('"', rest)
    else if e = '\\' then some ('\\', rest)
    else if e = '/' then some ('/', rest)
    else if e = 'b' then some (Char.ofNat 8, rest)
    else if e = 'f' then some (Char.ofNat 12, rest)
    else if e = 'n' then some (Char.ofNat 10, rest)
    else if e = 'r' then some (Char.ofNat 13, rest)
    else if e = 't' then some (Char.ofNat 9, rest)
    else none

/-- Decode the body of a JSON string literal up to the closing quote,
resolving escapes.  Fuel-driven; one unit per decoded character. -/
def parseStrBody : Nat → List Char → Option (List Char × List Char)
  | fuel, input =>
    match input with
    | [] => none
    | c :: rest =>
      if c = '"' then some ([], rest)
      else
        match fuel with
        | 0 => none
        | f + 1 =>
          if c = '\\' then
            match unescapeAt rest with
            | none => none
            | some (ch, rest') =>
              (parseStrBody f rest').map fun r => (ch :: r.1, r.2)
          else (parseStrBody f rest).map fun r => (c :: r.1, r.2)

/-- Parse a JSON string literal. -/
def parseJString (input : List Char) : Option (String × List Char) :=
  match input with
  | [] => none
  | c :: rest =>
    if c = '"' then
      (parseStrBody rest.length rest).map fun r => (String.mk r.1, r.2)
    else none

/-- Parse `"key": "value"`. -/
def parsePairKV (input : List Char) : Option ((String × String) × List Char) :=
  match parseJString input with
  | none => none
  | some (k, r1) =>
    match r1 with
    | c1 :: c2 :: r2 =>
      if c1 = ':' ∧ c2 = ' ' then
        match parseJString r2 with
        | none => none
        | some (v, r3) => some ((k, v), r3)
      else none
    | _ => none

/-- Parse the members of an object after the first one: either the closing
brace or `, ` followed by another member (fuel-driven). -/
def parsePairsRest : Nat → List Char → Option (List (String × String) × List Char)
  | fuel, input =>
    match input with
    | [] => none
    | c :: rest =>
      if c = '}' then some ([], rest)
      else if c = ',' then
        match rest with
        | [] => none
        | sp :: rest1 =>
          if sp = ' ' then
            match fuel with
            | 0 => none
            | f + 1 =>
              match parsePairKV rest1 with
              | none => none
              | some (p, r1) =>
                match parsePairsRest f r1 with
                | none => none
                | some (ps, r2) => some (p :: ps, r2)
          else none
      else none

/-- Parse a JSON object of string pairs. -/
def parseObj (input : List Char) : Option (List (String × String) × List Char) :=
  match input with
  | [] => none
  | c :: rest =>
    if c = '{' then
      match rest with
      | [] => none
      | c2 :: rest2 =>
        if c2 = '}' then some ([], rest2)
        else
          match parsePairKV (c2 :: rest2) with
          | none => none
          | some (p, r1) =>
            match parsePairsRest r1.length r1 with
            | none => none
            | some (ps, r2) => some (p :: ps, r2)
    else none

/-- Parse the elements of the array after the first one (fuel-driven). -/
def parseObjsRest : Nat → List Char → Option (List Step × List Char)
  | fuel, input =>
    match input with
    | [] => none
    | c :: rest =>
      if c = ']' then some ([], rest)
      else if c = ',' then
        match rest with
        | [] => none
        | sp :: rest1 =>
          if sp = ' ' then
            match fuel with
            | 0 => none
            | f + 1 =>
              match parseObj rest1 with
              | none => none
              | some (o, r1) =>
                match parseObjsRest f r1 with
                | none => none
                | some (os, r2) => some (o :: os, r2)
          else none
      else none

/-- Parse the JSON array of step objects. -/
def parseArr (input : List Char) : Option (List Step × List Char) :=
  match input with
  | [] => none
  | c :: rest =>
    if c = '[' then
      match rest with
      | [] => none
      | c2 :: rest2 =>
        if c2 = ']' then some ([], rest2)
        else
          match parseObj (c2 :: rest2) with
          | none => none
          | some (o, r1) =>
            match parseObjsRest r1.length r1 with
            | none => none
            | some (os, r2) => some (o :: os, r2)
    else none

/-- `json.loads` restricted to the grammar produced by `jsonDumpSteps`;
requires the whole input to be consumed. -/
def jsonLoadsSteps (s : String) : Option (List Step) :=
  match parseArr s.data with
  | some (l, []) => some l
  | _ => none

/-! ### Compression

Modelled from the spec: the external `brotli` library is "a general-purpose
byte-oriented compressor"; it is modelled by a concrete lossless
byte-oriented run-length coder (`rleCompress` / `rleDecompress`), which has
the same interface and the same lossless round-trip contract. -/

/-- Run-length coder: emit `(count, byte)` pairs, runs capped at 255. -/
def rleGo (count b : Nat) : List Nat → List Nat
  | [] => [count, b]
  | x :: xs =>
    if x = b ∧ count < 255 then rleGo (count + 1) b xs
    else count :: b :: rleGo 1 x xs

/-- Modelled from the spec: `brotli.compress` stand-in (lossless). -/
def rleCompress : List Nat → List Nat
  | [] => []
  | x :: xs => rleGo 1 x xs

/-- Modelled from the spec: `brotli.decompress` stand-in. -/
def rleDecompress : List Nat → List Nat
  | c :: b :: rest => List.replicate c b ++ rleDecompress rest
  | _ => []

/-- `compress_browser_steps` from `plugin_orm.py`: a falsy payload (absent
or empty list) yields no stored payload; otherwise the payload is JSON
serialized, UTF-8 encoded and compressed. -/
def compress_browser_steps (browser_steps : Option (List Step)) :
    Option (List Nat) :=
  match browser_steps with
  | none => none
  | some [] => none
  | some bs => some (rleCompress (utf8Encode (jsonDumpSteps bs)))

/-! ### Data model (`models.py`)

Each table is a row list plus the autoincrement counter (`nextId`);
`session.add` + `session.flush` appends a row carrying the fresh id. -/

/-- Python truthiness of an optional list (`None` and `[]` are falsy). -/
def pyTruthyList : Option (List α) → Bool
  | none => false
  | some l => !l.isEmpty

structure Table (α : Type) where
  rows : List α
  nextId : Nat
deriving Repr, DecidableEq

/-- A fresh table (SQL autoincrement identifiers start at 1). -/
def Table.empty : Table α := { rows := [], nextId := 1 }

/-- `hostnames` row. -/
structure HostnameRow where
  id : Nat
  hostname : String
  first_seen : Nat
  last_seen : Nat
deriving Repr, DecidableEq

/-- `proxy_endpoints` row (unique on `(proxy_key, proxy_endpoint)`;
`proxy_key` is nullable). -/
structure ProxyRow where
  id : Nat
  proxy_key : Option String
  proxy_endpoint : String
  first_seen : Nat
  last_seen : Nat
  request_count : Nat
deriving Repr, DecidableEq

/-- `browser_connections` row (unique on `(browser_connection_url,
fetch_backend)`). -/
structure BrowserConnRow where
  id : Nat
  browser_connection_url : String
  fetch_backend : String
  first_seen : Nat
  last_seen : Nat
  request_count : Nat
deriving Repr, DecidableEq

/-- `watches` row (unique on `url_hash = MD5(watch_uuid + watch_url)`). -/
structure WatchRow where
  id : Nat
  watch_uuid : String
  watch_url : String
  url_hash : String
  processor : String
  first_seen : Nat
  last_seen : Nat
  request_count : Nat
deriving Repr, DecidableEq

/-- `error_types` row (unique on `error_type`). -/
structure ErrorTypeRow where
  id : Nat
  error_type : String
  first_seen : Nat
  last_seen : Nat
  occurrence_count : Nat
deriving Repr, DecidableEq

/-- `watch_requests` fact row. -/
structure RequestRow where
  id : Nat
  app_guid : String
  hostname_id : Nat
  watch_id : Nat
  request_date : Nat
  request_timestamp : Nat
  proxy_id : Option Nat
  browser_conn_id : Option Nat
  browser_steps : Option (List Nat)
  browser_steps_count : Nat
  result : String
  duration_ms : Nat
  content_length : Option Nat
  status_code : Option Nat
  error_type_id : Option Nat
  error_message : Option String
deriving Repr, DecidableEq

/-- `get_or_create_hostname` from `models.py`: query by hostname; create on
a miss, bump `last_seen` on a hit. -/
def get_or_create_hostname (t : Table HostnameRow) (hostname : String)
    (now : Nat) : HostnameRow × Table HostnameRow :=
  match t.rows.find? (fun r => r.hostname == hostname) with
  | none =>
    let r : HostnameRow :=
      { id := t.nextId, hostname := hostname, first_seen := now, last_seen := now }
    (r, { rows := t.rows ++ [r], nextId := t.nextId + 1 })
  | some r =>
    let rows' := updateFirst (fun x => x.hostname == hostname)
      (fun x => { x with last_seen := now }) t.rows
    ({ r with last_seen := now }, { t with rows := rows' })

/-- `get_or_create_proxy` from `models.py`: falsy endpoint short-circuits to
no row; otherwise query by the `(key, endpoint)` pair; create with
`request_count = 1` on a miss, bump `last_seen` and the counter on a hit. -/
def get_or_create_proxy (t : Table ProxyRow) (proxy_key : Option String)
    (proxy_endpoint : Option String) (now : Nat) :
    Option ProxyRow × Table ProxyRow :=
  if !pyTruthyStr proxy_endpoint then (none, t)
  else
    let ep := proxy_endpoint.getD ""
    match t.rows.find? (fun r => r.proxy_key == proxy_key && r.proxy_endpoint == ep) with
    | none =>
      let r : ProxyRow :=
        { id := t.nextId, proxy_key := proxy_key, proxy_endpoint := ep,
          first_seen := now, last_seen := now, request_count := 1 }
      (some r, { rows := t.rows ++ [r], nextId := t.nextId + 1 })
    | some r =>
      let rows' := updateFirst
        (fun x => x.proxy_key == proxy_key && x.proxy_endpoint == ep)
        (fun x => { x with last_seen := now, request_count := x.request_count + 1 })
        t.rows
      (some { r with last_seen := now, request_count := r.request_count + 1 },
       { t with rows := rows' })

/-- `get_or_create_browser_conn` from `models.py`. -/
def get_or_create_browser_conn (t : Table BrowserConnRow)
    (browser_url : Option String) (fetch_backend : String) (now : Nat) :
    Option BrowserConnRow × Table BrowserConnRow :=
  if !pyTruthyStr browser_url then (none, t)
  else
    let u := browser_url.getD ""
    match t.rows.find? (fun r =>
        r.browser_connection_url == u && r.fetch_backend == fetch_backend) with
    | none =>
      let r : BrowserConnRow :=
        { id := t.nextId, browser_connection_url := u, fetch_backend := fetch_backend,
          first_seen := now, last_seen := now, request_count := 1 }
      (some r, { rows := t.rows ++ [r], nextId := t.nextId + 1 })
    | some r =>
      let rows' := updateFirst
        (fun x => x.browser_connection_url == u && x.fetch_backend == fetch_backend)
        (fun x => { x with last_seen := now, request_count := x.request_count + 1 })
        t.rows
      (some { r with last_seen := now, request_count := r.request_count + 1 },
       { t with rows := rows' })

/-- The content-addressed watch key: `MD5(f"{watch_uuid}{watch_url}")`. -/
def watchUrlHash (watch_uuid watch_url : String) : String :=
  md5HexOfString (watch_uuid ++ watch_url)

/-- `get_or_create_watch` from `models.py`: query by the uuid+url hash; a
miss (new watch or changed URL) creates a new row; a hit bumps `last_seen`
and the counter and overwrites the processor tag. -/
def get_or_create_watch (t : Table WatchRow)
    (watch_uuid watch_url processor : String) (now : Nat) :
    WatchRow × Table WatchRow :=
  let url_hash := watchUrlHash watch_uuid watch_url
  match t.rows.find? (fun r => r.url_hash == url_hash) with
  | none =>
    let r : WatchRow :=
      { id := t.nextId, watch_uuid := watch_uuid, watch_url := watch_url,
        url_hash := url_hash, processor := processor,
        first_seen := now, last_seen := now, request_count := 1 }
    (r, { rows := t.rows ++ [r], nextId := t.nextId + 1 })
  | some r =>
    let bump := fun (x : WatchRow) =>
      { x with last_seen := now, processor := processor,
               request_count := x.request_count + 1 }
    let rows' := updateFirst (fun x => x.url_hash == url_hash) bump t.rows
    (bump r, { t with rows := rows' })

/-- `get_or_create_error_type` from `models.py`. -/
def get_or_create_error_type (t : Table ErrorTypeRow)
    (error_type : Option String) (now : Nat) :
    Option ErrorTypeRow × Table ErrorTypeRow :=
  if !pyTruthyStr error_type then (none, t)
  else
    let et := error_type.getD ""
    match t.rows.find? (fun r => r.error_type == et) with
    | none =>
      let r : ErrorTypeRow :=
        { id := t.nextId, error_type := et, first_seen := now, last_seen := now,
          occurrence_count := 1 }
      (some r, { rows := t.rows ++ [r], nextId := t.nextId + 1 })
    | some r =>
      let rows' := updateFirst (fun x => x.error_type == et)
        (fun x => { x with last_seen := now, occurrence_count := x.occurrence_count + 1 })
        t.rows
      (some { r with last_seen := now, occurrence_count := r.occurrence_count + 1 },
       { t with rows := rows' })

/-! ### Resolvers under a concurrent-writer race

The same source functions, with the session made explicit: the session's
query sees `visible` (its snapshot plus its own pending rows), while the
storage unique constraint checked at `session.flush()` also sees rows
already committed by concurrent writers (`committed`).  The source body of
each resolver contains no handler for the constraint violation, which is
therefore returned as `Except.error` — it propagates out of the resolver. -/

/-- `get_or_create_hostname` with the flush-time unique constraint made
explicit; a duplicate key committed by another writer makes the flush fail,
and the error propagates (no fallback lookup exists in the source). -/
def get_or_create_hostname_raced (visible committed : List HostnameRow)
    (nextId now : Nat) (hostname : String) :
    Except String (HostnameRow × List HostnameRow) :=
  match visible.find? (fun r => r.hostname == hostname) with
  | none =>
    if committed.any (fun r => r.hostname == hostname) then
      Except.error "IntegrityError: duplicate key in hostnames.hostname"
    else
      let r : HostnameRow :=
        { id := nextId, hostname := hostname, first_seen := now, last_seen := now }
      Except.ok (r, visible ++ [r])
  | some r =>
    Except.ok ({ r with last_seen := now },
      updateFirst (fun x => x.hostname == hostname)
        (fun x => { x with last_seen := now }) visible)

/-- `get_or_create_watch` with the flush-time unique constraint on
`url_hash` made explicit. -/
def get_or_create_watch_raced (visible committed : List WatchRow)
    (nextId now : Nat) (watch_uuid watch_url processor : String) :
    Except String (WatchRow × List WatchRow) :=
  let url_hash := watchUrlHash watch_uuid watch_url
  match visible.find? (fun r => r.url_hash == url_hash) with
  | none =>
    if committed.any (fun r => r.url_hash == url_hash) then
      Except.error "IntegrityError: duplicate key in watches.url_hash"
    else
      let r : WatchRow :=
        { id := nextId, watch_uuid := watch_uuid, watch_url := watch_url,
          url_hash := url_hash, processor := processor,
          first_seen := now, last_seen := now, request_count := 1 }
      Except.ok (r, visible ++ [r])
  | some r =>
    let bump := fun (x : WatchRow) =>
      { x with last_seen := now, processor := processor,
               request_count := x.request_count + 1 }
    Except.ok (bump r, updateFirst (fun x => x.url_hash == url_hash) bump visible)

/-! ### The wrapper (`plugin_orm.py`, `MySQLLoggerWrapper`) -/

/-- The wrapper's captured metrics (`__init__` defaults). -/
structure LoggerState where
  fetch_complete : Bool := false
  detection_complete : Bool := false
  content_length : Option Nat := none
  status_code : Option Nat := none
  error_type : Option String := none
  error_message : Option String := none
  changed : Bool := false
  browser_connection_url : Option String := none
  last_logging_insert_id : Option Nat := none
deriving Repr, DecidableEq

/-- The watch dict fields read by the plugin. -/
structure WatchDict where
  uuid : String
  url : String
  link : Option String := none
  browser_steps : Option (List Step) := none
  proxy : Option String := none
  fetch_backend : Option String := none
  processor : Option String := none
deriving Repr, DecidableEq

/-- The whole relational store. -/
structure DB where
  hostnames : Table HostnameRow := Table.empty
  proxies : Table ProxyRow := Table.empty
  browser_conns : Table BrowserConnRow := Table.empty
  watches : Table WatchRow := Table.empty
  error_types : Table ErrorTypeRow := Table.empty
  requests : Table RequestRow := Table.empty
deriving Repr, DecidableEq

/-- Sites inside `_log_to_database` where the storage layer may raise;
the body of the source is wrapped in one `try`/`except`, so a failure at
any of these sites reaches the same handler. -/
inductive FailSite where
  | sessionBegin
  | resolveHostname
  | resolveWatch
  | resolveProxy
  | resolveBrowserConn
  | resolveErrorType
  | insertRequest
  | commit
deriving Repr, DecidableEq

/-- `_log_to_database`, result-status block: `failed` if an error type was
captured, else by phase completion. -/
def log_result_status (st : LoggerState) : String :=
  if pyTruthyStr st.error_type then "failed"
  else if st.fetch_complete && st.detection_complete then "success"
  else if st.fetch_complete then "partial"
  else "incomplete"

/-- `_log_to_database`, browser-steps block: compressed payload and step
count when the watch carries a truthy step list. -/
def log_browser_steps (w : WatchDict) : Option (List Nat) × Nat :=
  if pyTruthyList w.browser_steps then
    (compress_browser_steps w.browser_steps, (w.browser_steps.getD []).length)
  else (none, 0)

/-- `_log_to_database`, proxy block: the configured proxy key (from the
watch) and the endpoint the fetcher reports; a key that itself starts with
`http://` or `socks` is reclassified as the endpoint, with a null key. -/
def log_proxy_fields (w : WatchDict) (fetcherProxy : Option String) :
    Option String × Option String :=
  if pyTruthyStr w.proxy
      && ((pyStartsWith (w.proxy.getD "") "http://")
          || (pyStartsWith (w.proxy.getD "") "socks")) then
    (none, w.proxy)
  else (w.proxy, fetcherProxy)

/-- `_log_to_database`, browser-connection block. -/
def log_browser_conn_url (st : LoggerState) : Option String :=
  if pyTruthyStr st.browser_connection_url then st.browser_connection_url
  else none

/-- `_log_to_database`: canonical watch URL (`watch.link or watch.get('url')`). -/
def log_watch_url (w : WatchDict) : String :=
  if pyTruthyStr w.link then w.link.getD "" else w.url

/-- The body of `_log_to_database` (inside its `try`): computes the result
status, encodes the payload, reclassifies the proxy key, resolves the five
dimensions, inserts the fact row and commits, returning the committed store
and the generated identifier.  `failAt` injects a storage failure at the
given site (modelling the exception possibilities of each round-trip). -/
def logBody (st : LoggerState) (watch : WatchDict)
    (hostname app_guid : String) (fetcherProxy : Option String) (db : DB)
    (today now durationMs : Nat) (failAt : Option FailSite) :
    Except String (DB × Nat) :=
  if failAt = some FailSite.sessionBegin then Except.error "session" else
  let result := log_result_status st
  let bsteps := log_browser_steps watch
  let pfields := log_proxy_fields watch fetcherProxy
  let fetch_backend := watch.fetch_backend.getD "system"
  let browser_conn_url := log_browser_conn_url st
  if failAt = some FailSite.resolveHostname then Except.error "hostname" else
  let hres := get_or_create_hostname db.hostnames hostname now
  if failAt = some FailSite.resolveWatch then Except.error "watch" else
  let wres := get_or_create_watch db.watches watch.uuid (log_watch_url watch)
    (watch.processor.getD "text_json_diff") now
  if failAt = some FailSite.resolveProxy then Except.error "proxy" else
  let pres := if pyTruthyStr pfields.2 then
      get_or_create_proxy db.proxies pfields.1 pfields.2 now
    else (none, db.proxies)
  if failAt = some FailSite.resolveBrowserConn then Except.error "browser_conn" else
  let bres := if pyTruthyStr browser_conn_url then
      get_or_create_browser_conn db.browser_conns browser_conn_url fetch_backend now
    else (none, db.browser_conns)
  if failAt = some FailSite.resolveErrorType then Except.error "error_type" else
  let eres := if pyTruthyStr st.error_type then
      get_or_create_error_type db.error_types st.error_type now
    else (none, db.error_types)
  if failAt = some FailSite.insertRequest then Except.error "insert" else
  let req : RequestRow :=
    { id := db.requests.nextId, app_guid := app_guid,
      hostname_id := hres.1.id, watch_id := wres.1.id,
      request_date := today, request_timestamp := now,
      proxy_id := pres.1.map (fun o => o.id),
      browser_conn_id := bres.1.map (fun o => o.id),
      browser_steps := bsteps.1, browser_steps_count := bsteps.2,
      result := result, duration_ms := durationMs,
      content_length := st.content_length, status_code := st.status_code,
      error_type_id := eres.1.map (fun o => o.id),
      error_message := st.error_message }
  if failAt = some FailSite.commit then Except.error "commit" else
  Except.ok
    ({ hostnames := hres.2, proxies := pres.2, browser_conns := bres.2,
       watches := wres.2, error_types := eres.2,
       requests := { rows := db.requests.rows ++ [req],
                     nextId := db.requests.nextId + 1 } },
     db.requests.nextId)

/-- `_log_to_database`: the `try`/`except`/`finally` boundary around
`logBody`.  On success the commit is kept and the insert id retained; on
any failure the transaction is rolled back (the store is unchanged), the
failure is logged, and nothing is raised — the wrapper state keeps its
previous insert id (initially `none`). -/
def logToDatabase (st : LoggerState) (watch : WatchDict)
    (hostname app_guid : String) (fetcherProxy : Option String) (db : DB)
    (today now durationMs : Nat) (failAt : Option FailSite) :
    LoggerState × DB :=
  match logBody st watch hostname app_guid fetcherProxy db today now durationMs failAt with
  | Except.ok (db', rid) => ({ st with last_logging_insert_id := some rid }, db')
  | Except.error _ => (st, db)

/-- The attributes of the host's fetcher object that `call_browser` reads;
an absent optional field models a failing `hasattr`/`getattr`. -/
structure Fetcher where
  content : List Nat := []
  status_code : Option Nat := none
  browser_connection_url : Option String := none
  command_executor_url : Option String := none
  ws_endpoint : Option String := none
deriving Repr, DecidableEq

/-- A Python exception: its type name and its `str(...)` message. -/
structure PyExc where
  name : String
  msg : String
deriving Repr, DecidableEq

/-- `call_browser`: runs the wrapped fetch phase (its outcome is the
`outcome` argument).  On success it records fetch metrics and returns the
wrapped handler's value unchanged; on failure it captures the error type
and the message truncated to 1000 characters, then re-raises the very same
exception. -/
def call_browser (st : LoggerState) (fetcher : Option Fetcher)
    (outcome : Except PyExc α) : LoggerState × Except PyExc α :=
  match outcome with
  | Except.ok v =>
    let st1 := { st with fetch_complete := true }
    let st2 :=
      match fetcher with
      | none => st1
      | some f =>
        let stm := { st1 with content_length := some f.content.length,
                              status_code := f.status_code }
        match f.browser_connection_url with
        | some u => { stm with browser_connection_url := some u }
        | none =>
          match f.command_executor_url with
          | some u => { stm with browser_connection_url := some u }
          | none =>
            match f.ws_endpoint with
            | some u => { stm with browser_connection_url := some u }
            | none => stm
    (st2, Except.ok v)
  | Except.error e =>
    let st' := { st with error_type := some e.name,
                         error_message := some (strTake e.msg 1000) }
    (st', Except.error e)

/-- `run_changedetection`: runs the wrapped detection phase.  On success it
records the change flag (and a fallback content length), logs the event,
and returns the wrapped handler's triple unchanged; on failure it captures
the error (only if none was captured by `call_browser`), still logs the
event, then re-raises the very same exception. -/
def run_changedetection (st : LoggerState) (watch : WatchDict)
    (hostname app_guid : String) (fetcherProxy : Option String) (db : DB)
    (today now durationMs : Nat) (failAt : Option FailSite)
    (outcome : Except PyExc (Bool × β × String)) :
    LoggerState × DB × Except PyExc (Bool × β × String) :=
  match outcome with
  | Except.ok (changed, update_obj, contents) =>
    let st1 := { st with detection_complete := true, changed := changed }
    let st2 :=
      if !pyTruthyNat st1.content_length && contents != "" then
        { st1 with content_length := some contents.length }
      else st1
    let r := logToDatabase st2 watch hostname app_guid fetcherProxy db today now durationMs failAt
    (r.1, r.2, Except.ok (changed, update_obj, contents))
  | Except.error e =>
    let st1 :=
      if pyTruthyStr st.error_type then st
      else { st with error_type := some e.name,
                     error_message := some (strTake e.msg 1000) }
    let r := logToDatabase st1 watch hostname app_guid fetcherProxy db today now durationMs failAt
    (r.1, r.2, Except.error e)

/-- The `update_finalize` hook: given the wrapper's retained insert id
(`none` when there is no wrapper, no logging attribute, or no recorded id)
and the terminal exception, overwrite the addressed event row's result to
`success`/`failed`.  A falsy id (absent, or 0) and an unknown id are
no-ops; nothing is raised (the function is total). -/
def update_finalize (requests : List RequestRow) (insert_id : Option Nat)
    (processing_exception : Option String) : List RequestRow :=
  match insert_id with
  | none => requests
  | some i =>
    if i = 0 then requests
    else
      let final_result :=
        match processing_exception with
        | none => "success"
        | some _ => "failed"
      updateFirst (fun r => r.id == i)
        (fun r => { r with result := final_result }) requests

/-- The result-status precedence exactly as the spec words it (`failed` if
an error category was set, else `success` if both phases completed, else
`partial` if only fetch completed, else `incomplete`). -/
def spec_result_precedence (errorSet fetchDone detectionDone : Bool) : String :=
  if errorSet then "failed"
  else if fetchDone && detectionDone then "success"
  else if fetchDone then "partial"
  else "incomplete"

/-! ## Helper lemmas -/

theorem updateFirst_of_not (p : α → Bool) (f : α → α) (l : List α)
    (h : ∀ x ∈ l, p x = false) : updateFirst p f l = l := by
  induction l with
  | nil => rfl
  | cons x xs ih =>
    have hx := h x (List.mem_cons_self x xs)
    simp only [updateFirst, hx, Bool.false_eq_true, if_false]
    rw [ih fun y hy => h y (List.mem_cons_of_mem x hy)]

theorem updateFirst_append_first (p : α → Bool) (f : α → α)
    (pre post : List α) (r : α) (hpre : ∀ x ∈ pre, p x = false)
    (hr : p r = true) :
    updateFirst p f (pre ++ r :: post) = pre ++ f r :: post := by
  induction pre with
  | nil => simp [updateFirst, hr]
  | cons x xs ih =>
    have hx := hpre x (List.mem_cons_self x xs)
    simp only [List.cons_append, updateFirst, hx, Bool.false_eq_true, if_false,
      List.append_eq]
    rw [ih fun y hy => hpre y (List.mem_cons_of_mem x hy)]

theorem updateFirst_idem (p : α → Bool) (f : α → α)
    (hp : ∀ x, p (f x) = p x) (hf : ∀ x, f (f x) = f x) (l : List α) :
    updateFirst p f (updateFirst p f l) = updateFirst p f l := by
  induction l with
  | nil => rfl
  | cons x xs ih =>
    by_cases hx : p x = true
    · simp [updateFirst, hx, hp x, hf x]
    · have hx' : p x = false := by revert hx; cases p x <;> simp
      simp [updateFirst, hx', ih]

theorem mem_updateFirst (p : α → Bool) (f : α → α) (l : List α) (y : α)
    (h : y ∈ updateFirst p f l) :
    y ∈ l ∨ ∃ x ∈ l, p x = true ∧ y = f x := by
  induction l with
  | nil => cases h
  | cons x xs ih =>
    by_cases hx : p x = true
    · simp only [updateFirst, hx, if_true] at h
      rcases List.mem_cons.mp h with h1 | h1
      · exact Or.inr ⟨x, List.mem_cons_self x xs, hx, h1⟩
      · exact Or.inl (List.mem_cons_of_mem x h1)
    · have hx' : p x = false := by revert hx; cases p x <;> simp
      simp only [updateFirst, hx', Bool.false_eq_true, if_false] at h
      rcases List.mem_cons.mp h with h1 | h1
      · exact Or.inl (h1 ▸ List.mem_cons_self x xs)
      · rcases ih h1 with h2 | ⟨z, hz, hpz, hyz⟩
        · exact Or.inl (List.mem_cons_of_mem x h2)
        · exact Or.inr ⟨z, List.mem_cons_of_mem x hz, hpz, hyz⟩

theorem image_mem_updateFirst_of_find? (p : α → Bool) (f : α → α)
    (l : List α) (r : α) (h : l.find? p = some r) :
    f r ∈ updateFirst p f l := by
  induction l with
  | nil => cases h
  | cons x xs ih =>
    by_cases hx : p x = true
    · rw [List.find?_cons_of_pos _ hx] at h
      cases h
      simp [updateFirst, hx]
    · have hx' : p x = false := by revert hx; cases p x <;> simp
      rw [List.find?_cons_of_neg _ (by simp [hx'])] at h
      simp only [updateFirst, hx', Bool.false_eq_true, if_false]
      exact List.mem_cons_of_mem x (ih h)

/-- A concrete event row used in concrete instantiations. -/
def sampleRequestRow : RequestRow :=
  { id := 1, app_guid := "g", hostname_id := 1, watch_id := 1,
    request_date := 0, request_timestamp := 0, proxy_id := none,
    browser_conn_id := none, browser_steps := none, browser_steps_count := 0,
    result := "partial", duration_ms := 5, content_length := none,
    status_code := none, error_type_id := none, error_message := none }

/-! ## Claims -/

/-- C1: at the initial insert, the recorded event's result status follows
the spec's precedence — `failed` if an error category was set, else
`success` if both the fetch and the detection phase completed, else
`partial` if only fetch completed, else `incomplete`. -/
theorem result_status_at_insert (st : LoggerState) (w : WatchDict)
    (hostname app_guid : String) (fetcherProxy : Option String) (db : DB)
    (today now durationMs : Nat) :
    ∃ row : RequestRow,
      (logToDatabase st w hostname app_guid fetcherProxy db today now
          durationMs none).2.requests.rows
        = db.requests.rows ++ [row]
      ∧ row.result
          = spec_result_precedence (pyTruthyStr st.error_type)
              st.fetch_complete st.detection_complete :=
  ⟨_, rfl, rfl⟩

/-- C4: a storage failure at any site inside `_log_to_database` is caught
at the boundary — the transaction is rolled back (the store is returned
unchanged), the call returns normally (the function is total, nothing
propagates), and the retained insert identifier stays empty. -/
theorem logging_failure_is_contained (st : LoggerState) (w : WatchDict)
    (hostname app_guid : String) (fetcherProxy : Option String) (db : DB)
    (today now durationMs : Nat) (s : FailSite)
    (hid : st.last_logging_insert_id = none) :
    logToDatabase st w hostname app_guid fetcherProxy db today now
        durationMs (some s) = (st, db)
    ∧ (logToDatabase st w hostname app_guid fetcherProxy db today now
        durationMs (some s)).1.last_logging_insert_id = none := by
  cases s <;> exact ⟨rfl, hid⟩

theorem logging_failure_is_contained_witness :
    ({} : LoggerState).last_logging_insert_id = none
    ∧ (logToDatabase {} { uuid := "u", url := "x" } "h" "g" none {} 1 2 3
          (some FailSite.commit) = ({}, {})
      ∧ (logToDatabase {} { uuid := "u", url := "x" } "h" "g" none {} 1 2 3
          (some FailSite.commit)).1.last_logging_insert_id = none) :=
  ⟨rfl, logging_failure_is_contained {} { uuid := "u", url := "x" } "h" "g"
    none {} 1 2 3 FailSite.commit rfl⟩

/-- C5: the finalize hook on a valid identifier overwrites the addressed
event's result to exactly `success` (no processing exception) or exactly
`failed` (with one); it is idempotent when repeated with the same outcome;
and an absent, zero or unknown identifier is a no-op (the operation is a
total function, so nothing is raised). -/
theorem update_finalize_contract (rows pre post : List RequestRow)
    (r : RequestRow) (i : Nat) (exc : Option String) (errmsg : String) :
    update_finalize rows none exc = rows
    ∧ update_finalize rows (some 0) exc = rows
    ∧ ((∀ x ∈ rows, x.id ≠ i) → update_finalize rows (some i) exc = rows)
    ∧ (i ≠ 0 → (∀ x ∈ pre, x.id ≠ i) → r.id = i →
        update_finalize (pre ++ r :: post) (some i) none
          = pre ++ { r with result := "success" } :: post)
    ∧ (i ≠ 0 → (∀ x ∈ pre, x.id ≠ i) → r.id = i →
        update_finalize (pre ++ r :: post) (some i) (some errmsg)
          = pre ++ { r with result := "failed" } :: post)
    ∧ update_finalize (update_finalize rows (some i) exc) (some i) exc
        = update_finalize rows (some i) exc := by
  refine ⟨rfl, by simp [update_finalize], ?_, ?_, ?_, ?_⟩
  · intro hmem
    by_cases h0 : i = 0
    · simp [update_finalize, h0]
    · simp only [update_finalize, h0, if_false]
      exact updateFirst_of_not _ _ rows fun x hx => by
        simp [hmem x hx]
  · intro h0 hpre hr
    simp only [update_finalize, h0, if_false]
    exact updateFirst_append_first _ _ pre post r
      (fun x hx => by simp [hpre x hx]) (by simp [hr])
  · intro h0 hpre hr
    simp only [update_finalize, h0, if_false]
    exact updateFirst_append_first _ _ pre post r
      (fun x hx => by simp [hpre x hx]) (by simp [hr])
  · by_cases h0 : i = 0
    · simp [update_finalize, h0]
    · simp only [update_finalize, h0, if_false]
      apply updateFirst_idem
      · intro x; rfl
      · intro x; rfl

theorem update_finalize_contract_witness :
    (1 : Nat) ≠ 0
    ∧ (∀ x ∈ ([] : List RequestRow), x.id ≠ 1)
    ∧ sampleRequestRow.id = 1
    ∧ (update_finalize [] none none = []
      ∧ update_finalize [] (some 0) none = []
      ∧ ((∀ x ∈ ([] : List RequestRow), x.id ≠ 1) →
          update_finalize [] (some 1) none = [])
      ∧ ((1 : Nat) ≠ 0 → (∀ x ∈ ([] : List RequestRow), x.id ≠ 1) →
          sampleRequestRow.id = 1 →
          update_finalize ([] ++ sampleRequestRow :: []) (some 1) none
            = [] ++ { sampleRequestRow with result := "success" } :: [])
      ∧ ((1 : Nat) ≠ 0 → (∀ x ∈ ([] : List RequestRow), x.id ≠ 1) →
          sampleRequestRow.id = 1 →
          update_finalize ([] ++ sampleRequestRow :: []) (some 1) (some "boom")
            = [] ++ { sampleRequestRow with result := "failed" } :: [])
      ∧ update_finalize (update_finalize [] (some 1) none) (some 1) none
          = update_finalize [] (some 1) none) :=
  ⟨by decide, by simp, rfl,
   update_finalize_contract [] [] [] sampleRequestRow 1 none "boom"⟩

/-! ### Resolver characterization lemmas -/

theorem get_or_create_proxy_mem (t : Table ProxyRow) (k ep : Option String)
    (now : Nat) (hep : pyTruthyStr ep = true) :
    ∃ prow, (get_or_create_proxy t k ep now).1 = some prow
      ∧ prow ∈ (get_or_create_proxy t k ep now).2.rows
      ∧ prow.proxy_key = k ∧ prow.proxy_endpoint = ep.getD "" := by
  unfold get_or_create_proxy
  simp only [hep, Bool.not_true, Bool.false_eq_true, if_false]
  cases hf : t.rows.find?
      (fun r => r.proxy_key == k && r.proxy_endpoint == ep.getD "") with
  | none =>
    exact ⟨_, rfl, by simp, rfl, rfl⟩
  | some r =>
    have hp := List.find?_some hf
    have h1 : r.proxy_key = k := by
      have := (Bool.and_eq_true _ _).mp hp
      exact eq_of_beq this.1
    have h2 : r.proxy_endpoint = ep.getD "" := by
      have := (Bool.and_eq_true _ _).mp hp
      exact eq_of_beq this.2
    exact ⟨_, rfl, image_mem_updateFirst_of_find? _ _ _ _ hf, h1, h2⟩

theorem get_or_create_error_type_mem (t : Table ErrorTypeRow)
    (et : Option String) (now : Nat) (het : pyTruthyStr et = true) :
    ∃ erow, (get_or_create_error_type t et now).1 = some erow
      ∧ erow ∈ (get_or_create_error_type t et now).2.rows
      ∧ erow.error_type = et.getD "" := by
  unfold get_or_create_error_type
  simp only [het, Bool.not_true, Bool.false_eq_true, if_false]
  cases hf : t.rows.find? (fun r => r.error_type == et.getD "") with
  | none =>
    exact ⟨_, rfl, by simp, rfl⟩
  | some r =>
    have hp := List.find?_some hf
    exact ⟨_, rfl, image_mem_updateFirst_of_find? _ _ _ _ hf, eq_of_beq hp⟩

theorem log_proxy_fields_reclass (w : WatchDict) (fetcherProxy : Option String)
    (pk : String) (hpk : w.proxy = some pk) (hne : pk ≠ "")
    (hstart : pyStartsWith pk "http://" = true ∨ pyStartsWith pk "socks" = true) :
    log_proxy_fields w fetcherProxy = (none, some pk) := by
  unfold log_proxy_fields
  rw [hpk]
  have h1 : pyTruthyStr (some pk) = true := by simp [pyTruthyStr, hne]
  rcases hstart with h | h <;> simp [h1, h]

/-- C9 (implicit): when the configured proxy key itself starts with
`http://` or `socks`, `_log_to_database` reclassifies it as the endpoint
and stores a null key: the event row's proxy dimension resolves to a row
with `proxy_key = NULL` and `proxy_endpoint` equal to the supplied key. -/
theorem proxy_key_reclassified (st : LoggerState) (w : WatchDict)
    (hostname app_guid : String) (fetcherProxy : Option String) (db : DB)
    (today now durationMs : Nat) (pk : String)
    (hpk : w.proxy = some pk) (hne : pk ≠ "")
    (hstart : pyStartsWith pk "http://" = true ∨ pyStartsWith pk "socks" = true) :
    ∃ row prow,
      (logToDatabase st w hostname app_guid fetcherProxy db today now
          durationMs none).2.requests.rows = db.requests.rows ++ [row]
      ∧ prow ∈ (logToDatabase st w hostname app_guid fetcherProxy db today now
          durationMs none).2.proxies.rows
      ∧ row.proxy_id = some prow.id
      ∧ prow.proxy_key = none ∧ prow.proxy_endpoint = pk := by
  have hlpf := log_proxy_fields_reclass w fetcherProxy pk hpk hne hstart
  have hcond : pyTruthyStr (log_proxy_fields w fetcherProxy).2 = true := by
    rw [hlpf]; simp [pyTruthyStr, hne]
  obtain ⟨prow, hp1, hp2, hp3, hp4⟩ := get_or_create_proxy_mem db.proxies
    (log_proxy_fields w fetcherProxy).1 (log_proxy_fields w fetcherProxy).2
    now hcond
  refine ⟨_, prow, rfl, ?_, ?_, ?_, ?_⟩
  · show prow ∈ (if pyTruthyStr (log_proxy_fields w fetcherProxy).2 then
        get_or_create_proxy db.proxies (log_proxy_fields w fetcherProxy).1
          (log_proxy_fields w fetcherProxy).2 now
      else (none, db.proxies)).2.rows
    rw [if_pos hcond]
    exact hp2
  · show (if pyTruthyStr (log_proxy_fields w fetcherProxy).2 then
        get_or_create_proxy db.proxies (log_proxy_fields w fetcherProxy).1
          (log_proxy_fields w fetcherProxy).2 now
      else (none, db.proxies)).1.map (fun o => o.id) = some prow.id
    rw [if_pos hcond, hp1]
    rfl
  · rw [hp3, hlpf]
  · rw [hp4, hlpf]
    rfl

theorem proxy_key_reclassified_witness :
    ({ uuid := "u", url := "x", proxy := some "socks5://10.0.0.1:1080" }
        : WatchDict).proxy = some "socks5://10.0.0.1:1080"
    ∧ "socks5://10.0.0.1:1080" ≠ ""
    ∧ (pyStartsWith "socks5://10.0.0.1:1080" "http://" = true
        ∨ pyStartsWith "socks5://10.0.0.1:1080" "socks" = true)
    ∧ ∃ row prow,
        (logToDatabase {}
            { uuid := "u", url := "x", proxy := some "socks5://10.0.0.1:1080" }
            "h" "g" none {} 1 2 3 none).2.requests.rows
          = ({} : DB).requests.rows ++ [row]
        ∧ prow ∈ (logToDatabase {}
            { uuid := "u", url := "x", proxy := some "socks5://10.0.0.1:1080" }
            "h" "g" none {} 1 2 3 none).2.proxies.rows
        ∧ row.proxy_id = some prow.id
        ∧ prow.proxy_key = none
        ∧ prow.proxy_endpoint = "socks5://10.0.0.1:1080" :=
  ⟨rfl, by decide, Or.inr (by decide),
   proxy_key_reclassified {}
     { uuid := "u", url := "x", proxy := some "socks5://10.0.0.1:1080" }
     "h" "g" none {} 1 2 3 "socks5://10.0.0.1:1080" rfl (by decide)
     (Or.inr (by decide))⟩

/-- `logToDatabase` returns a first component whose error fields are those
of the state it was given (both on success and on failure). -/
theorem logToDatabase_error_fields (st : LoggerState) (w : WatchDict)
    (hostname app_guid : String) (fetcherProxy : Option String) (db : DB)
    (today now durationMs : Nat) (failAt : Option FailSite) :
    (logToDatabase st w hostname app_guid fetcherProxy db today now
        durationMs failAt).1.error_type = st.error_type
    ∧ (logToDatabase st w hostname app_guid fetcherProxy db today now
        durationMs failAt).1.error_message = st.error_message := by
  unfold logToDatabase
  cases logBody st w hostname app_guid fetcherProxy db today now durationMs
    failAt <;> exact ⟨rfl, rfl⟩

/-- C7: the interception layer is transparent.  `call_browser` returns the
wrapped phase's value unchanged on success, and on failure captures the
error category (the exception's type name) and the detail truncated to
1000 characters, then re-raises the very same exception;
`run_changedetection` behaves the same for the detection phase (capturing
only if no error was already captured). -/
theorem wrapper_transparency (st : LoggerState) (f : Option Fetcher) (v : α)
    (e e2 : PyExc) (w : WatchDict) (hostname app_guid : String)
    (fetcherProxy : Option String) (db : DB) (today now durationMs : Nat)
    (failAt : Option FailSite) (chg : Bool) (uo : β) (contents : String) :
    (call_browser st f (Except.ok v)).2 = Except.ok v
    ∧ (call_browser (α := α) st f (Except.error e)).2 = Except.error e
    ∧ (call_browser (α := α) st f (Except.error e)).1.error_type = some e.name
    ∧ (call_browser (α := α) st f (Except.error e)).1.error_message
        = some (strTake e.msg 1000)
    ∧ (strTake e.msg 1000).length ≤ 1000
    ∧ (run_changedetection st w hostname app_guid fetcherProxy db today now
        durationMs failAt (Except.ok (chg, uo, contents))).2.2
        = Except.ok (chg, uo, contents)
    ∧ (run_changedetection (β := β) st w hostname app_guid fetcherProxy db
        today now durationMs failAt (Except.error e2)).2.2 = Except.error e2
    ∧ (pyTruthyStr st.error_type = false →
        (run_changedetection (β := β) st w hostname app_guid fetcherProxy db
          today now durationMs failAt (Except.error e2)).1.error_type
            = some e2.name
        ∧ (run_changedetection (β := β) st w hostname app_guid fetcherProxy db
          today now durationMs failAt (Except.error e2)).1.error_message
            = some (strTake e2.msg 1000)) := by
  refine ⟨rfl, rfl, rfl, rfl, ?_, rfl, rfl, ?_⟩
  · show (e.msg.data.take 1000).length ≤ 1000
    rw [List.length_take]
    exact min_le_left _ _
  · intro hno
    have h := logToDatabase_error_fields
      (if pyTruthyStr st.error_type then st else { st with error_type := some e2.name, error_message := some (strTake e2.msg 1000) })
      w hostname app_guid fetcherProxy db today now durationMs failAt
    constructor
    · rw [show (run_changedetection (β := β) st w hostname app_guid fetcherProxy db today now durationMs failAt (Except.error e2)).1.error_type = (logToDatabase (if pyTruthyStr st.error_type then st else { st with error_type := some e2.name, error_message := some (strTake e2.msg 1000) }) w hostname app_guid fetcherProxy db today now durationMs failAt).1.error_type from rfl]
      rw [h.1, hno]
      rfl
    · rw [show (run_changedetection (β := β) st w hostname app_guid fetcherProxy db today now durationMs failAt (Except.error e2)).1.error_message = (logToDatabase (if pyTruthyStr st.error_type then st else { st with error_type := some e2.name, error_message := some (strTake e2.msg 1000) }) w hostname app_guid fetcherProxy db today now durationMs failAt).1.error_message from rfl]
      rw [h.2, hno]
      rfl

theorem wrapper_transparency_witness :
    (call_browser ({} : LoggerState) none (Except.ok (7 : Nat))).2
        = Except.ok (7 : Nat)
    ∧ (call_browser (α := Nat) {} none
        (Except.error { name := "Timeout", msg := "boom" })).2
        = Except.error { name := "Timeout", msg := "boom" }
    ∧ (call_browser (α := Nat) {} none
        (Except.error { name := "Timeout", msg := "boom" })).1.error_type
        = some "Timeout"
    ∧ (call_browser (α := Nat) {} none
        (Except.error { name := "Timeout", msg := "boom" })).1.error_message
        = some (strTake "boom" 1000)
    ∧ (strTake "boom" 1000).length ≤ 1000
    ∧ (run_changedetection {} { uuid := "u", url := "x" } "h" "g" none {} 1 2 3
        none (Except.ok (true, (5 : Nat), "body"))).2.2
        = Except.ok (true, (5 : Nat), "body")
    ∧ (run_changedetection (β := Nat) {} { uuid := "u", url := "x" } "h" "g"
        none {} 1 2 3 none
        (Except.error { name := "ValueError", msg := "bad" })).2.2
        = Except.error { name := "ValueError", msg := "bad" }
    ∧ (pyTruthyStr ({} : LoggerState).error_type = false →
        (run_changedetection (β := Nat) {} { uuid := "u", url := "x" } "h" "g"
          none {} 1 2 3 none
          (Except.error { name := "ValueError", msg := "bad" })).1.error_type
            = some "ValueError"
        ∧ (run_changedetection (β := Nat) {} { uuid := "u", url := "x" } "h"
          "g" none {} 1 2 3 none
          (Except.error { name := "ValueError", msg := "bad" })).1.error_message
            = some (strTake "bad" 1000)) :=
  wrapper_transparency {} none 7 { name := "Timeout", msg := "boom" }
    { name := "ValueError", msg := "bad" } { uuid := "u", url := "x" } "h" "g"
    none {} 1 2 3 none true 5 "body"

/-- When the wrapper state carries a truthy error type, the inserted event
row is marked `failed`, keeps the captured error message, and references an
error-category row holding the captured error type. -/
theorem logToDatabase_failed_row (st : LoggerState) (w : WatchDict)
    (hostname app_guid : String) (fetcherProxy : Option String) (db : DB)
    (today now durationMs : Nat)
    (htr : pyTruthyStr st.error_type = true) :
    ∃ row erow,
      (logToDatabase st w hostname app_guid fetcherProxy db today now
          durationMs none).2.requests.rows = db.requests.rows ++ [row]
      ∧ row.error_message = st.error_message
      ∧ row.result = "failed"
      ∧ erow ∈ (logToDatabase st w hostname app_guid fetcherProxy db today
          now durationMs none).2.error_types.rows
      ∧ row.error_type_id = some erow.id
      ∧ erow.error_type = st.error_type.getD "" := by
  obtain ⟨erow, he1, he2, he3⟩ := get_or_create_error_type_mem db.error_types
    st.error_type now htr
  refine ⟨_, erow, rfl, rfl, ?_, ?_, ?_, he3⟩
  · show log_result_status st = "failed"
    unfold log_result_status
    rw [htr]
    rfl
  · show erow ∈ (if pyTruthyStr st.error_type then
        get_or_create_error_type db.error_types st.error_type now
      else (none, db.error_types)).2.rows
    rw [if_pos htr]
    exact he2
  · show (if pyTruthyStr st.error_type then
        get_or_create_error_type db.error_types st.error_type now
      else (none, db.error_types)).1.map (fun o => o.id) = some erow.id
    rw [if_pos htr, he1]
    rfl

/-- C10 (implicit): when both phases raise, the first-observed error wins —
after `call_browser` captured the fetch-phase exception, a detection-phase
exception does not overwrite it, and the recorded event row carries the
fetch-phase error category and truncated detail. -/
theorem first_error_wins (st : LoggerState) (f : Option Fetcher)
    (e1 e2 : PyExc) (w : WatchDict) (hostname app_guid : String)
    (fetcherProxy : Option String) (db : DB) (today now durationMs : Nat)
    (hname : e1.name ≠ "") :
    (run_changedetection (β := Nat)
        (call_browser (α := Nat) st f (Except.error e1)).1
        w hostname app_guid fetcherProxy db today now durationMs none
        (Except.error e2)).1.error_type = some e1.name
    ∧ (run_changedetection (β := Nat)
        (call_browser (α := Nat) st f (Except.error e1)).1
        w hostname app_guid fetcherProxy db today now durationMs none
        (Except.error e2)).1.error_message = some (strTake e1.msg 1000)
    ∧ ∃ row erow,
        (run_changedetection (β := Nat)
          (call_browser (α := Nat) st f (Except.error e1)).1
          w hostname app_guid fetcherProxy db today now durationMs none
          (Except.error e2)).2.1.requests.rows = db.requests.rows ++ [row]
        ∧ row.error_message = some (strTake e1.msg 1000)
        ∧ row.result = "failed"
        ∧ erow ∈ (run_changedetection (β := Nat)
            (call_browser (α := Nat) st f (Except.error e1)).1
            w hostname app_guid fetcherProxy db today now durationMs none
            (Except.error e2)).2.1.error_types.rows
        ∧ row.error_type_id = some erow.id
        ∧ erow.error_type = e1.name := by
  have htr : pyTruthyStr
      (call_browser (α := Nat) st f (Except.error e1)).1.error_type = true := by
    show pyTruthyStr (some e1.name) = true
    simp [pyTruthyStr, hname]
  unfold run_changedetection
  simp only [htr, if_true]
  refine ⟨?_, ?_, ?_⟩
  · exact (logToDatabase_error_fields _ w hostname app_guid fetcherProxy db
      today now durationMs none).1
  · exact (logToDatabase_error_fields _ w hostname app_guid fetcherProxy db
      today now durationMs none).2
  · obtain ⟨row, erow, h1, h2, h3, h4, h5, h6⟩ := logToDatabase_failed_row
      (call_browser (α := Nat) st f (Except.error e1)).1 w hostname app_guid
      fetcherProxy db today now durationMs htr
    exact ⟨row, erow, h1, h2, h3, h4, h5, h6⟩

theorem first_error_wins_witness :
    ({ name := "Timeout", msg := "slow" } : PyExc).name ≠ ""
    ∧ ((run_changedetection (β := Nat)
        (call_browser (α := Nat) {} none
          (Except.error { name := "Timeout", msg := "slow" })).1
        { uuid := "u", url := "x" } "h" "g" none {} 1 2 3 none
        (Except.error { name := "ValueError", msg := "bad" })).1.error_type
          = some "Timeout"
      ∧ (run_changedetection (β := Nat)
        (call_browser (α := Nat) {} none
          (Except.error { name := "Timeout", msg := "slow" })).1
        { uuid := "u", url := "x" } "h" "g" none {} 1 2 3 none
        (Except.error { name := "ValueError", msg := "bad" })).1.error_message
          = some (strTake "slow" 1000)
      ∧ ∃ row erow,
          (run_changedetection (β := Nat)
            (call_browser (α := Nat) {} none
              (Except.error { name := "Timeout", msg := "slow" })).1
            { uuid := "u", url := "x" } "h" "g" none {} 1 2 3 none
            (Except.error { name := "ValueError", msg := "bad" })).2.1.requests.rows
            = ({} : DB).requests.rows ++ [row]
          ∧ row.error_message = some (strTake "slow" 1000)
          ∧ row.result = "failed"
          ∧ erow ∈ (run_changedetection (β := Nat)
              (call_browser (α := Nat) {} none
                (Except.error { name := "Timeout", msg := "slow" })).1
              { uuid := "u", url := "x" } "h" "g" none {} 1 2 3 none
              (Except.error { name := "ValueError", msg := "bad" })).2.1.error_types.rows
          ∧ row.error_type_id = some erow.id
          ∧ erow.error_type = "Timeout") :=
  ⟨by decide,
   first_error_wins {} none { name := "Timeout", msg := "slow" }
     { name := "ValueError", msg := "bad" } { uuid := "u", url := "x" } "h"
     "g" none {} 1 2 3 (by decide)⟩

/-- C6 counterexample: nothing enforces at-most-once finalization — after a
row was finalized to `success`, a second finalize with a different outcome
overwrites it to `failed`, so an already-finalized result is not immutable. -/
theorem finalized_result_can_flip :
    update_finalize [sampleRequestRow] (some 1) none
      = [{ sampleRequestRow with result := "success" }]
    ∧ update_finalize (update_finalize [sampleRequestRow] (some 1) none)
        (some 1) (some "boom")
      = [{ sampleRequestRow with result := "failed" }]
    ∧ ({ sampleRequestRow with result := "failed" } : RequestRow).result
        ≠ ({ sampleRequestRow with result := "success" } : RequestRow).result :=
  ⟨rfl, rfl, by decide⟩

/-- C6 (amended): the initial insert writes a result in
{success, partial, incomplete, failed}; recording never modifies an
existing event row (it only appends); and each finalize call writes only
`success` or `failed` and only to the addressed row — but a repeated
finalize is not prevented from overwriting an earlier terminal value. -/
theorem result_lifecycle (st : LoggerState) (w : WatchDict)
    (hostname app_guid : String) (fetcherProxy : Option String) (db : DB)
    (today now durationMs : Nat) (failAt : Option FailSite)
    (rows : List RequestRow) (oid : Option Nat) (exc : Option String) :
    (∃ row, (logToDatabase st w hostname app_guid fetcherProxy db today now
          durationMs none).2.requests.rows = db.requests.rows ++ [row]
        ∧ (row.result = "success" ∨ row.result = "partial"
            ∨ row.result = "incomplete" ∨ row.result = "failed"))
    ∧ (∃ tail, (logToDatabase st w hostname app_guid fetcherProxy db today
          now durationMs failAt).2.requests.rows = db.requests.rows ++ tail)
    ∧ (∀ x ∈ update_finalize rows oid exc, x ∈ rows
        ∨ ∃ r ∈ rows,
            x = { r with result := if exc.isSome then "failed" else "success" }) := by
  refine ⟨⟨_, rfl, ?_⟩, ?_, ?_⟩
  · show log_result_status st = "success" ∨ log_result_status st = "partial"
      ∨ log_result_status st = "incomplete" ∨ log_result_status st = "failed"
    unfold log_result_status
    split_ifs <;> simp
  · cases failAt with
    | none => exact ⟨_, rfl⟩
    | some s => cases s <;> exact ⟨[], (List.append_nil _).symm⟩
  · intro x hx
    cases oid with
    | none => exact Or.inl hx
    | some i =>
      by_cases h0 : i = 0
      · subst h0
        simp only [update_finalize, if_pos rfl] at hx
        exact Or.inl hx
      · simp only [update_finalize, h0, if_false] at hx
        rcases mem_updateFirst _ _ _ _ hx with h | ⟨r, hr, hpr, hxr⟩
        · exact Or.inl h
        · refine Or.inr ⟨r, hr, ?_⟩
          rw [hxr]
          cases exc <;> rfl

set_option maxRecDepth 1000000 in
/-- C2 counterexample: the watch-identity key is MD5 of `uuid + url`, and
MD5 is not injective — for the two distinct ASCII URLs below (a known MD5
collision, with `uuid = ""`) the two resolves hit the same `url_hash`, so
only ONE row exists afterwards, not two, and the second resolve returns the
first row's identifier. -/
theorem watch_identity_collision :
    "TEXTCOLLBYfGiJUETHQ4hAcKSMd5zYpgqf1YRDhkmxHkhPWptrkoyz28wnI9V0aHeAuaKnak"
      ≠ "TEXTCOLLBYfGiJUETHQ4hEcKSMd5zYpgqf1YRDhkmxHkhPWptrkoyz28wnI9V0aHeAuaKnak"
    ∧ watchUrlHash ""
        "TEXTCOLLBYfGiJUETHQ4hAcKSMd5zYpgqf1YRDhkmxHkhPWptrkoyz28wnI9V0aHeAuaKnak"
      = watchUrlHash ""
        "TEXTCOLLBYfGiJUETHQ4hEcKSMd5zYpgqf1YRDhkmxHkhPWptrkoyz28wnI9V0aHeAuaKnak"
    ∧ (get_or_create_watch
        (get_or_create_watch Table.empty ""
          "TEXTCOLLBYfGiJUETHQ4hAcKSMd5zYpgqf1YRDhkmxHkhPWptrkoyz28wnI9V0aHeAuaKnak"
          "p" 0).2 ""
        "TEXTCOLLBYfGiJUETHQ4hEcKSMd5zYpgqf1YRDhkmxHkhPWptrkoyz28wnI9V0aHeAuaKnak"
        "p" 1).2.rows.length = 1
    ∧ (get_or_create_watch
        (get_or_create_watch Table.empty ""
          "TEXTCOLLBYfGiJUETHQ4hAcKSMd5zYpgqf1YRDhkmxHkhPWptrkoyz28wnI9V0aHeAuaKnak"
          "p" 0).2 ""
        "TEXTCOLLBYfGiJUETHQ4hEcKSMd5zYpgqf1YRDhkmxHkhPWptrkoyz28wnI9V0aHeAuaKnak"
        "p" 1).1.id
      = (get_or_create_watch Table.empty ""
          "TEXTCOLLBYfGiJUETHQ4hAcKSMd5zYpgqf1YRDhkmxHkhPWptrkoyz28wnI9V0aHeAuaKnak"
          "p" 0).1.id :=
  ⟨by decide, by decide, by decide, by decide⟩

/-- A fresh key: the resolve creates a row carrying the fresh identifier. -/
theorem get_or_create_watch_miss (t : Table WatchRow) (U A p : String)
    (n : Nat)
    (h : t.rows.find? (fun r => r.url_hash == watchUrlHash U A) = none) :
    get_or_create_watch t U A p n
      = (⟨t.nextId, U, A, watchUrlHash U A, p, n, n, 1⟩,
         ⟨t.rows ++ [⟨t.nextId, U, A, watchUrlHash U A, p, n, n, 1⟩],
          t.nextId + 1⟩) := by
  simp only [get_or_create_watch]
  rw [h]

/-- An existing key: the resolve returns the found row, bumped in place. -/
theorem get_or_create_watch_hit (t : Table WatchRow) (U A p : String)
    (n : Nat) (r : WatchRow)
    (h : t.rows.find? (fun x => x.url_hash == watchUrlHash U A) = some r) :
    get_or_create_watch t U A p n
      = ({ r with last_seen := n, processor := p,
                  request_count := r.request_count + 1 },
         ⟨updateFirst (fun x => x.url_hash == watchUrlHash U A)
            (fun x => { x with last_seen := n, processor := p,
                               request_count := x.request_count + 1 }) t.rows,
          t.nextId⟩) := by
  simp only [get_or_create_watch]
  rw [h]

/-- The scenario asserted by C2, for resolves of `(U, A)`, `(U, B)` and
then `(U, A)` again: two distinct rows with independent counters, both
carrying uuid `U`; the third (repeat) resolve returns the first row's
identifier, only bumping last-seen, the counter and the processor tag. -/
def WatchScenarioHolds (t : Table WatchRow) (U A B pA pB pC : String)
    (n1 n2 n3 : Nat) : Prop :=
  let c1 := get_or_create_watch t U A pA n1
  let c2 := get_or_create_watch c1.2 U B pB n2
  let c3 := get_or_create_watch c2.2 U A pC n3
  c1.1.watch_uuid = U ∧ c2.1.watch_uuid = U
    ∧ c1.1.id ≠ c2.1.id
    ∧ c1.1.request_count = 1 ∧ c2.1.request_count = 1
    ∧ c2.2.rows = t.rows ++ [c1.1, c2.1]
    ∧ c3.1.id = c1.1.id
    ∧ c3.1.url_hash = c1.1.url_hash
    ∧ c3.1.watch_uuid = U ∧ c3.1.watch_url = A
    ∧ c3.1.request_count = 2 ∧ c3.1.last_seen = n3 ∧ c3.1.processor = pC
    ∧ c3.2.rows = t.rows ++ [c3.1, c2.1]

/-- C2 (amended): provided the two derived hashes differ (which MD5 does
not guarantee for every `A ≠ B`, see the collision counterexample) and
neither key is present yet, resolving `(U, A)` then `(U, B)` creates two
distinct rows, both carrying uuid `U`, each with its own counter at 1; and
re-resolving the existing pair `(U, A)` returns the same row identifier,
only bumping last-seen, the usage counter, and the processor tag. -/
theorem watch_identity_scenario (t : Table WatchRow) (U A B pA pB pC : String)
    (n1 n2 n3 : Nat)
    (hAB : watchUrlHash U A ≠ watchUrlHash U B)
    (hA : ∀ r ∈ t.rows, r.url_hash ≠ watchUrlHash U A)
    (hB : ∀ r ∈ t.rows, r.url_hash ≠ watchUrlHash U B) :
    WatchScenarioHolds t U A B pA pB pC n1 n2 n3 := by
  have hA' : t.rows.find? (fun r => r.url_hash == watchUrlHash U A) = none :=
    List.find?_eq_none.mpr fun x hx => by simp [hA x hx]
  have hB' : t.rows.find? (fun r => r.url_hash == watchUrlHash U B) = none :=
    List.find?_eq_none.mpr fun x hx => by simp [hB x hx]
  have e1 := get_or_create_watch_miss t U A pA n1 hA'
  have hf2 : ((t.rows ++ [(⟨t.nextId, U, A, watchUrlHash U A, pA, n1, n1, 1⟩
        : WatchRow)]).find? fun r => r.url_hash == watchUrlHash U B)
      = none := by
    rw [List.find?_append, hB']
    exact List.find?_eq_none.mpr fun x hx => by
      rw [List.mem_singleton] at hx
      subst hx
      simp [hAB]
  have e2 := get_or_create_watch_miss
    (⟨t.rows ++ [⟨t.nextId, U, A, watchUrlHash U A, pA, n1, n1, 1⟩],
      t.nextId + 1⟩ : Table WatchRow) U B pB n2 hf2
  have hf3 : (((t.rows ++ [(⟨t.nextId, U, A, watchUrlHash U A, pA, n1, n1, 1⟩
          : WatchRow)])
        ++ [(⟨t.nextId + 1, U, B, watchUrlHash U B, pB, n2, n2, 1⟩
          : WatchRow)]).find? fun x => x.url_hash == watchUrlHash U A)
      = some ⟨t.nextId, U, A, watchUrlHash U A, pA, n1, n1, 1⟩ := by
    rw [List.find?_append, List.find?_append, hA']
    simp
  have e3 := get_or_create_watch_hit
    (⟨(t.rows ++ [⟨t.nextId, U, A, watchUrlHash U A, pA, n1, n1, 1⟩])
        ++ [⟨t.nextId + 1, U, B, watchUrlHash U B, pB, n2, n2, 1⟩],
      t.nextId + 1 + 1⟩ : Table WatchRow) U A pC n3
    ⟨t.nextId, U, A, watchUrlHash U A, pA, n1, n1, 1⟩ hf3
  have hu : updateFirst (fun x => x.url_hash == watchUrlHash U A)
      (fun x => { x with last_seen := n3, processor := pC,
                         request_count := x.request_count + 1 })
      ((t.rows ++ [(⟨t.nextId, U, A, watchUrlHash U A, pA, n1, n1, 1⟩
          : WatchRow)])
        ++ [⟨t.nextId + 1, U, B, watchUrlHash U B, pB, n2, n2, 1⟩])
      = (t.rows ++ [(⟨t.nextId, U, A, watchUrlHash U A, pC, n1, n3, 2⟩
          : WatchRow)])
        ++ [⟨t.nextId + 1, U, B, watchUrlHash U B, pB, n2, n2, 1⟩] := by
    rw [List.append_assoc, List.append_assoc]
    exact updateFirst_append_first _ _ t.rows _ _
      (fun x hx => by simp [hA x hx]) (by simp)
  unfold WatchScenarioHolds
  simp only [e1, e2, e3, hu]
  simp [List.append_assoc]

set_option maxRecDepth 100000 in
theorem watch_identity_scenario_witness :
    watchUrlHash "u" "a" ≠ watchUrlHash "u" "b"
    ∧ (∀ r ∈ (Table.empty : Table WatchRow).rows,
        r.url_hash ≠ watchUrlHash "u" "a")
    ∧ (∀ r ∈ (Table.empty : Table WatchRow).rows,
        r.url_hash ≠ watchUrlHash "u" "b")
    ∧ WatchScenarioHolds Table.empty "u" "a" "b" "p" "p" "q" 0 1 2 :=
  ⟨by decide, by simp [Table.empty], by simp [Table.empty],
   watch_identity_scenario Table.empty "u" "a" "b" "p" "p" "q" 0 1 2
     (by decide) (by simp [Table.empty]) (by simp [Table.empty])⟩

/-- C3 counterexample: a concurrent writer has committed the key
`"host-a"` (invisible to this session's query).  The source resolver has no
handler for the uniqueness conflict: the flush failure propagates out of
`get_or_create_hostname` as an error — the resolver does not fall back to a
lookup and does not return the existing row's identifier. -/
theorem resolver_race_error :
    get_or_create_hostname_raced [] [⟨1, "host-a", 0, 0⟩] 2 5 "host-a"
      = Except.error "IntegrityError: duplicate key in hostnames.hostname" :=
  rfl

/-- C3 (amended): a duplicate-key conflict caused by a concurrent writer
makes the resolver's flush fail and the error propagate out of the resolver
(there is no fallback lookup); it is caught only at the `_log_to_database`
boundary, which rolls back the transaction and retains no identifier, so
the losing caller receives no row identifier (rather than the existing
row's), and no duplicate row is created by it. -/
theorem resolver_race_propagates
    (visible committed : List HostnameRow) (nid now : Nat) (hn : String)
    (wvisible wcommitted : List WatchRow) (wnid wnow : Nat) (U A p : String)
    (st : LoggerState) (w : WatchDict) (hostname app_guid : String)
    (fetcherProxy : Option String) (db : DB) (today now2 durationMs : Nat)
    (s : FailSite)
    (hmiss : ∀ r ∈ visible, r.hostname ≠ hn)
    (hhit : ∃ r ∈ committed, r.hostname = hn)
    (wmiss : ∀ r ∈ wvisible, r.url_hash ≠ watchUrlHash U A)
    (whit : ∃ r ∈ wcommitted, r.url_hash = watchUrlHash U A) :
    get_or_create_hostname_raced visible committed nid now hn
      = Except.error "IntegrityError: duplicate key in hostnames.hostname"
    ∧ get_or_create_watch_raced wvisible wcommitted wnid wnow U A p
      = Except.error "IntegrityError: duplicate key in watches.url_hash"
    ∧ logToDatabase st w hostname app_guid fetcherProxy db today now2
        durationMs (some s) = (st, db) := by
  have hfind : visible.find? (fun r => r.hostname == hn) = none :=
    List.find?_eq_none.mpr fun x hx => by simp [hmiss x hx]
  have hany : (committed.any fun r => r.hostname == hn) = true := by
    obtain ⟨r, hr, hrh⟩ := hhit
    exact List.any_eq_true.mpr ⟨r, hr, by simp [hrh]⟩
  have wfind : wvisible.find? (fun r => r.url_hash == watchUrlHash U A)
      = none :=
    List.find?_eq_none.mpr fun x hx => by simp [wmiss x hx]
  have wany : (wcommitted.any fun r => r.url_hash == watchUrlHash U A)
      = true := by
    obtain ⟨r, hr, hrh⟩ := whit
    exact List.any_eq_true.mpr ⟨r, hr, by simp [hrh]⟩
  refine ⟨?_, ?_, ?_⟩
  · unfold get_or_create_hostname_raced
    rw [hfind, hany]
    rfl
  · unfold get_or_create_watch_raced
    simp only []
    rw [wfind, wany]
    rfl
  · cases s <;> rfl

theorem resolver_race_propagates_witness :
    (∀ r ∈ ([] : List HostnameRow), r.hostname ≠ "host-a")
    ∧ (∃ r ∈ [(⟨1, "host-a", 0, 0⟩ : HostnameRow)], r.hostname = "host-a")
    ∧ (∀ r ∈ ([] : List WatchRow), r.url_hash ≠ watchUrlHash "u" "a")
    ∧ (∃ r ∈ [(⟨1, "u", "a", watchUrlHash "u" "a", "p", 0, 0, 1⟩ : WatchRow)],
        r.url_hash = watchUrlHash "u" "a")
    ∧ (get_or_create_hostname_raced [] [⟨1, "host-a", 0, 0⟩] 2 5 "host-a"
        = Except.error "IntegrityError: duplicate key in hostnames.hostname"
      ∧ get_or_create_watch_raced []
          [⟨1, "u", "a", watchUrlHash "u" "a", "p", 0, 0, 1⟩] 2 5 "u" "a" "p"
        = Except.error "IntegrityError: duplicate key in watches.url_hash"
      ∧ logToDatabase {} { uuid := "u", url := "x" } "h" "g" none {} 1 2 3
          (some FailSite.insertRequest) = ({}, {})) :=
  ⟨by simp, ⟨⟨1, "host-a", 0, 0⟩, by simp, rfl⟩, by simp,
   ⟨⟨1, "u", "a", watchUrlHash "u" "a", "p", 0, 0, 1⟩, by simp, rfl⟩,
   resolver_race_propagates [] [⟨1, "host-a", 0, 0⟩] 2 5 "host-a"
     [] [⟨1, "u", "a", watchUrlHash "u" "a", "p", 0, 0, 1⟩] 2 5 "u" "a" "p"
     {} { uuid := "u", url := "x" } "h" "g" none {} 1 2 3
     FailSite.insertRequest (by simp) ⟨⟨1, "host-a", 0, 0⟩, by simp, rfl⟩
     (by simp) ⟨⟨1, "u", "a", watchUrlHash "u" "a", "p", 0, 0, 1⟩, by simp, rfl⟩⟩

/-! ### C8: payload round-trip lemmas -/

theorem rleGo_roundtrip (xs : List Nat) :
    ∀ c b, rleDecompress (rleGo c b xs) = List.replicate c b ++ xs := by
  induction xs with
  | nil =>
    intro c b
    simp [rleGo, rleDecompress]
  | cons x xs ih =>
    intro c b
    by_cases hx : x = b ∧ c < 255
    · rw [rleGo, if_pos hx, ih (c + 1) b, List.replicate_succ' c b, hx.1]
      simp
    · rw [rleGo, if_neg hx]
      show rleDecompress (c :: b :: rleGo 1 x xs) = _
      rw [rleDecompress, ih 1 x]
      simp [List.replicate]

/-- The compression stand-in is lossless. -/
theorem rle_roundtrip (l : List Nat) : rleDecompress (rleCompress l) = l := by
  cases l with
  | nil => rfl
  | cons x xs =>
    rw [rleCompress, rleGo_roundtrip xs 1 x]
    simp [List.replicate]

theorem hexVal_hexDig : ∀ m, m < 16 → hexVal (hexDig m) = some m := by decide

theorem hexDig_ascii : ∀ m, m < 16 → (hexDig m).toNat < 128 := by decide

theorem hex4_ascii (n : Nat) : ∀ d ∈ hex4 n, d.toNat < 128 := by
  intro d hd
  simp only [hex4, List.mem_cons, List.not_mem_nil, or_false] at hd
  rcases hd with h | h | h | h <;> subst h <;>
    exact hexDig_ascii _ (Nat.mod_lt _ (by decide))

theorem escChar_ascii (c : Char) : ∀ d ∈ escChar c, d.toNat < 128 := by
  intro d hd
  unfold escChar at hd
  split_ifs at hd with h1 h2 h3 h4 h5 h6 h7 h8 h9
  · simp only [List.mem_cons, List.not_mem_nil, or_false] at hd
    rcases hd with h | h <;> subst h <;> decide
  · simp only [List.mem_cons, List.not_mem_nil, or_false] at hd
    rcases hd with h | h <;> subst h <;> decide
  · simp only [List.mem_cons, List.not_mem_nil, or_false] at hd
    rcases hd with h | h <;> subst h <;> decide
  · simp only [List.mem_cons, List.not_mem_nil, or_false] at hd
    rcases hd with h | h <;> subst h <;> decide
  · simp only [List.mem_cons, List.not_mem_nil, or_false] at hd
    rcases hd with h | h <;> subst h <;> decide
  · simp only [List.mem_cons, List.not_mem_nil, or_false] at hd
    rcases hd with h | h <;> subst h <;> decide
  · simp only [List.mem_cons, List.not_mem_nil, or_false] at hd
    rcases hd with h | h <;> subst h <;> decide
  · simp only [List.mem_cons, List.not_mem_nil, or_false] at hd
    subst hd
    omega
  · simp only [List.mem_cons] at hd
    rcases hd with h | h | h
    · subst h; decide
    · subst h; decide
    · exact hex4_ascii _ _ h
  · simp only [List.mem_append, List.mem_cons] at hd
    rcases hd with (h | h | h) | (h | h | h)
    · subst h; decide
    · subst h; decide
    · exact hex4_ascii _ _ h
    · subst h; decide
    · subst h; decide
    · exact hex4_ascii _ _ h

theorem escChar_ne_nil (c : Char) : escChar c ≠ [] := by
  unfold escChar
  split_ifs <;> simp

theorem length_le_flatMap_escChar (cs : List Char) :
    cs.length ≤ (cs.flatMap escChar).length := by
  induction cs with
  | nil => simp
  | cons c cs ih =>
    rw [List.flatMap_cons, List.length_append, List.length_cons]
    have h1 : 1 ≤ (escChar c).length := by
      cases he : escChar c with
      | nil => exact absurd he (escChar_ne_nil c)
      | cons a l => simp
    omega

theorem utf8DecodeGo_ascii (cs : List Char) :
    ∀ fuel, cs.length ≤ fuel → (∀ c ∈ cs, c.toNat < 128) →
      utf8DecodeGo fuel (cs.flatMap fun c => utf8Char c.toNat) = some cs := by
  induction cs with
  | nil =>
    intro fuel _ _
    cases fuel <;> rfl
  | cons c cs ih =>
    intro fuel hfuel h
    have hc := h c (List.mem_cons_self c cs)
    have he : utf8Char c.toNat = [c.toNat] := by
      unfold utf8Char
      rw [if_pos hc]
    rw [List.flatMap_cons, he, List.cons_append, List.nil_append]
    cases fuel with
    | zero => exact absurd hfuel (by simp)
    | succ f =>
      rw [utf8DecodeGo]
      have hstep : utf8DecodeChar
          (c.toNat :: cs.flatMap fun x => utf8Char x.toNat)
          = some (Char.ofNat c.toNat, cs.flatMap fun x => utf8Char x.toNat) := by
        simp only [utf8DecodeChar]
        rw [if_pos hc]
      rw [hstep]
      show (utf8DecodeGo f (cs.flatMap fun x => utf8Char x.toNat)).map
          (fun l => Char.ofNat c.toNat :: l) = some (c :: cs)
      rw [ih f (by simpa using hfuel)
        fun x hx => h x (List.mem_cons_of_mem c hx)]
      simp [Char.ofNat_toNat]

theorem utf8Char_ne_nil (n : Nat) : utf8Char n ≠ [] := by
  unfold utf8Char
  split_ifs <;> simp

theorem length_le_flatMap_utf8 (cs : List Char) :
    cs.length ≤ (cs.flatMap fun c => utf8Char c.toNat).length := by
  induction cs with
  | nil => simp
  | cons c cs ih =>
    rw [List.flatMap_cons, List.length_append, List.length_cons]
    have h1 : 1 ≤ (utf8Char c.toNat).length := by
      cases he : utf8Char c.toNat with
      | nil => exact absurd he (utf8Char_ne_nil c.toNat)
      | cons a l => simp
    omega

/-- `utf8Decode` inverts `utf8Encode` on ASCII strings (which is all the
JSON serializer emits, `ensure_ascii` style). -/
theorem utf8Decode_ascii (cs : List Char) (h : ∀ c ∈ cs, c.toNat < 128) :
    utf8Decode (cs.flatMap fun c => utf8Char c.toNat) = some cs :=
  utf8DecodeGo_ascii cs _ (length_le_flatMap_utf8 cs) h


/-! ### JSON parser round-trip lemmas -/

theorem parseStrBody_step_close (fuel : Nat) (rest : List Char) :
    parseStrBody fuel ('"' :: rest) = some ([], rest) := by
  rw [parseStrBody.eq_def]
  simp

theorem parseStrBody_step_esc (f : Nat) (l tail : List Char) (ch : Char)
    (h : unescapeAt l = some (ch, tail)) :
    parseStrBody (f + 1) ('\\' :: l)
      = (parseStrBody f tail).map fun r => (ch :: r.1, r.2) := by
  rw [parseStrBody.eq_def]
  simp [h]

theorem parseStrBody_step_lit (f : Nat) (l : List Char) (c : Char)
    (h1 : c ≠ '"') (h2 : c ≠ '\\') :
    parseStrBody (f + 1) (c :: l)
      = (parseStrBody f l).map fun r => (c :: r.1, r.2) := by
  rw [parseStrBody.eq_def]
  simp [h1, h2]

theorem unescapeU_bmp (n : Nat) (hn : n < 65536)
    (hs : n < 55296 ∨ 57343 < n) (tail : List Char) :
    unescapeU (hex4 n ++ tail) = some (Char.ofNat n, tail) := by
  have d1 : n / 4096 % 16 < 16 := Nat.mod_lt _ (by decide)
  have d2 : n / 256 % 16 < 16 := Nat.mod_lt _ (by decide)
  have d3 : n / 16 % 16 < 16 := Nat.mod_lt _ (by decide)
  have d4 : n % 16 < 16 := Nat.mod_lt _ (by decide)
  have hrec : n / 4096 % 16 * 4096 + n / 256 % 16 * 256 + n / 16 % 16 * 16
      + n % 16 = n := by omega
  simp only [hex4, List.cons_append, List.nil_append]
  unfold unescapeU
  simp only [hexVal_hexDig _ d1, hexVal_hexDig _ d2, hexVal_hexDig _ d3,
    hexVal_hexDig _ d4]
  rw [hrec]
  rw [if_neg (by omega), if_neg (by omega)]

theorem unescapeAt_eq_u (l : List Char) : unescapeAt ('u' :: l) = unescapeU l := by
  simp only [unescapeAt]
  simp

theorem unescapeAt_u (n : Nat) (hn : n < 65536)
    (hs : n < 55296 ∨ 57343 < n) (tail : List Char) :
    unescapeAt ('u' :: (hex4 n ++ tail)) = some (Char.ofNat n, tail) := by
  rw [unescapeAt_eq_u]
  exact unescapeU_bmp n hn hs tail

theorem unescapeUPair_ok (n m : Nat) (hm : m < 1024) (tail : List Char) :
    unescapeUPair n ('\\' :: 'u' :: (hex4 (56320 + m) ++ tail))
      = some (Char.ofNat (65536 + (n - 55296) * 1024 + m), tail) := by
  have dl1 : (56320 + m) / 4096 % 16 < 16 := Nat.mod_lt _ (by decide)
  have dl2 : (56320 + m) / 256 % 16 < 16 := Nat.mod_lt _ (by decide)
  have dl3 : (56320 + m) / 16 % 16 < 16 := Nat.mod_lt _ (by decide)
  have dl4 : (56320 + m) % 16 < 16 := Nat.mod_lt _ (by decide)
  have hrecL : (56320 + m) / 4096 % 16 * 4096 + (56320 + m) / 256 % 16 * 256
      + (56320 + m) / 16 % 16 * 16 + (56320 + m) % 16 = 56320 + m := by omega
  simp only [hex4, List.cons_append, List.nil_append]
  unfold unescapeUPair
  simp only [hexVal_hexDig _ dl1, hexVal_hexDig _ dl2, hexVal_hexDig _ dl3,
    hexVal_hexDig _ dl4]
  rw [if_pos (by simp)]
  rw [hrecL]
  rw [if_pos (by omega)]
  have hfin : 56320 + m - 56320 = m := by omega
  rw [hfin]

theorem unescapeU_digits (x y z w : Nat) (hx : x < 16) (hy : y < 16)
    (hz : z < 16) (hw : w < 16) (rest1 : List Char) :
    unescapeU (hexDig x :: hexDig y :: hexDig z :: hexDig w :: rest1)
      = (if 55296 ≤ x * 4096 + y * 256 + z * 16 + w
            ∧ x * 4096 + y * 256 + z * 16 + w < 56320 then
          unescapeUPair (x * 4096 + y * 256 + z * 16 + w) rest1
        else if 56320 ≤ x * 4096 + y * 256 + z * 16 + w
            ∧ x * 4096 + y * 256 + z * 16 + w < 57344 then none
        else some (Char.ofNat (x * 4096 + y * 256 + z * 16 + w), rest1)) := by
  unfold unescapeU
  simp only [hexVal_hexDig _ hx, hexVal_hexDig _ hy, hexVal_hexDig _ hz,
    hexVal_hexDig _ hw]

theorem unescapeU_pair (n : Nat) (h1 : 65536 ≤ n) (h2 : n < 1114112)
    (tail : List Char) :
    unescapeU (hex4 (55296 + (n - 65536) / 1024)
      ++ ('\\' :: 'u' :: (hex4 (56320 + (n - 65536) % 1024) ++ tail)))
      = some (Char.ofNat n, tail) := by
  have dh1 : (55296 + (n - 65536) / 1024) / 4096 % 16 < 16 :=
    Nat.mod_lt _ (by decide)
  have dh2 : (55296 + (n - 65536) / 1024) / 256 % 16 < 16 :=
    Nat.mod_lt _ (by decide)
  have dh3 : (55296 + (n - 65536) / 1024) / 16 % 16 < 16 :=
    Nat.mod_lt _ (by decide)
  have dh4 : (55296 + (n - 65536) / 1024) % 16 < 16 := Nat.mod_lt _ (by decide)
  have hrecH : (55296 + (n - 65536) / 1024) / 4096 % 16 * 4096
      + (55296 + (n - 65536) / 1024) / 256 % 16 * 256
      + (55296 + (n - 65536) / 1024) / 16 % 16 * 16
      + (55296 + (n - 65536) / 1024) % 16
      = 55296 + (n - 65536) / 1024 := by omega
  have hexp : hex4 (55296 + (n - 65536) / 1024)
      ++ ('\\' :: 'u' :: (hex4 (56320 + (n - 65536) % 1024) ++ tail))
      = hexDig ((55296 + (n - 65536) / 1024) / 4096 % 16)
        :: hexDig ((55296 + (n - 65536) / 1024) / 256 % 16)
        :: hexDig ((55296 + (n - 65536) / 1024) / 16 % 16)
        :: hexDig ((55296 + (n - 65536) / 1024) % 16)
        :: ('\\' :: 'u' :: (hex4 (56320 + (n - 65536) % 1024) ++ tail)) := rfl
  rw [hexp, unescapeU_digits _ _ _ _ dh1 dh2 dh3 dh4, hrecH]
  rw [if_pos (by omega)]
  have hm : (n - 65536) % 1024 < 1024 := Nat.mod_lt _ (by decide)
  rw [unescapeUPair_ok _ _ hm tail]
  have hfin : 65536 + (55296 + (n - 65536) / 1024 - 55296) * 1024
      + (n - 65536) % 1024 = n := by omega
  rw [hfin]

theorem unescapeAt_su (n : Nat) (h1 : 65536 ≤ n) (h2 : n < 1114112)
    (tail : List Char) :
    unescapeAt ('u' :: (hex4 (55296 + (n - 65536) / 1024)
      ++ ('\\' :: 'u' :: (hex4 (56320 + (n - 65536) % 1024) ++ tail))))
      = some (Char.ofNat n, tail) := by
  rw [unescapeAt_eq_u]
  exact unescapeU_pair n h1 h2 tail

theorem unescapeAt_shorts (tail : List Char) :
    unescapeAt ('"' :: tail) = some ('"', tail)
    ∧ unescapeAt ('\\' :: tail) = some ('\\', tail)
    ∧ unescapeAt ('b' :: tail) = some (Char.ofNat 8, tail)
    ∧ unescapeAt ('t' :: tail) = some (Char.ofNat 9, tail)
    ∧ unescapeAt ('n' :: tail) = some (Char.ofNat 10, tail)
    ∧ unescapeAt ('f' :: tail) = some (Char.ofNat 12, tail)
    ∧ unescapeAt ('r' :: tail) = some (Char.ofNat 13, tail) :=
  ⟨rfl, rfl, rfl, rfl, rfl, rfl, rfl⟩

theorem parseStrBody_escape (cs : List Char) :
    ∀ (fuel : Nat) (rest : List Char), cs.length ≤ fuel →
      parseStrBody fuel (cs.flatMap escChar ++ '"' :: rest)
        = some (cs, rest) := by
  induction cs with
  | nil =>
    intro fuel rest _
    simp only [List.flatMap_nil, List.nil_append]
    exact parseStrBody_step_close fuel rest
  | cons c cs ih =>
    intro fuel rest hfuel
    cases fuel with
    | zero => simp at hfuel
    | succ f =>
      have hf : cs.length ≤ f := by simpa using hfuel
      rw [List.flatMap_cons, List.append_assoc]
      by_cases h1 : c = '"'
      · subst h1
        show parseStrBody (f + 1)
          (['\\', '"'] ++ (cs.flatMap escChar ++ '"' :: rest)) = _
        rw [List.cons_append, List.singleton_append,
          parseStrBody_step_esc f _ _ '"' (unescapeAt_shorts _).1,
          ih f rest hf]
        rfl
      by_cases h2 : c = '\\'
      · subst h2
        show parseStrBody (f + 1)
          (['\\', '\\'] ++ (cs.flatMap escChar ++ '"' :: rest)) = _
        rw [List.cons_append, List.singleton_append,
          parseStrBody_step_esc f _ _ '\\' (unescapeAt_shorts _).2.1,
          ih f rest hf]
        rfl
      by_cases h3 : c.toNat = 8
      · have he : escChar c = ['\\', 'b'] := by
          unfold escChar
          rw [if_neg h1, if_neg h2, if_pos h3]
        have hc : Char.ofNat 8 = c := h3 ▸ Char.ofNat_toNat c
        rw [he, List.cons_append, List.singleton_append,
          parseStrBody_step_esc f _ _ (Char.ofNat 8) (unescapeAt_shorts _).2.2.1,
          ih f rest hf, hc]
        rfl
      by_cases h4 : c.toNat = 9
      · have he : escChar c = ['\\', 't'] := by
          unfold escChar
          rw [if_neg h1, if_neg h2, if_neg h3, if_pos h4]
        have hc : Char.ofNat 9 = c := h4 ▸ Char.ofNat_toNat c
        rw [he, List.cons_append, List.singleton_append,
          parseStrBody_step_esc f _ _ (Char.ofNat 9)
            (unescapeAt_shorts _).2.2.2.1,
          ih f rest hf, hc]
        rfl
      by_cases h5 : c.toNat = 10
      · have he : escChar c = ['\\', 'n'] := by
          unfold escChar
          rw [if_neg h1, if_neg h2, if_neg h3, if_neg h4, if_pos h5]
        have hc : Char.ofNat 10 = c := h5 ▸ Char.ofNat_toNat c
        rw [he, List.cons_append, List.singleton_append,
          parseStrBody_step_esc f _ _ (Char.ofNat 10)
            (unescapeAt_shorts _).2.2.2.2.1,
          ih f rest hf, hc]
        rfl
      by_cases h6 : c.toNat = 12
      · have he : escChar c = ['\\', 'f'] := by
          unfold escChar
          rw [if_neg h1, if_neg h2, if_neg h3, if_neg h4, if_neg h5, if_pos h6]
        have hc : Char.ofNat 12 = c := h6 ▸ Char.ofNat_toNat c
        rw [he, List.cons_append, List.singleton_append,
          parseStrBody_step_esc f _ _ (Char.ofNat 12)
            (unescapeAt_shorts _).2.2.2.2.2.1,
          ih f rest hf, hc]
        rfl
      by_cases h7 : c.toNat = 13
      · have he : escChar c = ['\\', 'r'] := by
          unfold escChar
          rw [if_neg h1, if_neg h2, if_neg h3, if_neg h4, if_neg h5, if_neg h6,
            if_pos h7]
        have hc : Char.ofNat 13 = c := h7 ▸ Char.ofNat_toNat c
        rw [he, List.cons_append, List.singleton_append,
          parseStrBody_step_esc f _ _ (Char.ofNat 13)
            (unescapeAt_shorts _).2.2.2.2.2.2,
          ih f rest hf, hc]
        rfl
      by_cases h8 : 32 ≤ c.toNat ∧ c.toNat ≤ 126
      · have he : escChar c = [c] := by
          unfold escChar
          rw [if_neg h1, if_neg h2, if_neg h3, if_neg h4, if_neg h5, if_neg h6,
            if_neg h7, if_pos h8]
        rw [he, List.singleton_append,
          parseStrBody_step_lit f _ c h1 h2, ih f rest hf]
        rfl
      by_cases h9 : c.toNat < 65536
      · have he : escChar c = '\\' :: 'u' :: hex4 c.toNat := by
          unfold escChar
          rw [if_neg h1, if_neg h2, if_neg h3, if_neg h4, if_neg h5, if_neg h6,
            if_neg h7, if_neg h8, if_pos h9]
        have hs : c.toNat < 55296 ∨ 57343 < c.toNat := by
          rcases c.valid with h | ⟨ha, _⟩
          · exact Or.inl h
          · exact Or.inr ha
        have hu := unescapeAt_u c.toNat h9 hs (cs.flatMap escChar ++ '"' :: rest)
        rw [Char.ofNat_toNat] at hu
        rw [he, List.cons_append, List.cons_append,
          parseStrBody_step_esc f _ _ c hu, ih f rest hf]
        rfl
      · have h9' : 65536 ≤ c.toNat := by omega
        have hlt : c.toNat < 1114112 := by
          have hbridge : c.toNat = c.val.toNat := rfl
          rcases c.valid with h | ⟨_, hb⟩
          · omega
          · omega
        have he : escChar c = ('\\' :: 'u' :: hex4 (55296 + (c.toNat - 65536) / 1024))
            ++ ('\\' :: 'u' :: hex4 (56320 + (c.toNat - 65536) % 1024)) := by
          unfold escChar
          rw [if_neg h1, if_neg h2, if_neg h3, if_neg h4, if_neg h5, if_neg h6,
            if_neg h7, if_neg h8, if_neg h9]
        have hu := unescapeAt_su c.toNat h9' hlt (cs.flatMap escChar ++ '"' :: rest)
        rw [Char.ofNat_toNat] at hu
        rw [he]
        rw [List.append_assoc, List.cons_append, List.cons_append,
          List.cons_append, List.cons_append,
          parseStrBody_step_esc f _ _ c hu, ih f rest hf]
        rfl

theorem parseJString_escString (s : String) (rest : List Char) :
    parseJString (escString s ++ rest) = some (s, rest) := by
  rw [escString, List.cons_append, List.append_assoc, List.singleton_append]
  simp only [parseJString]
  rw [if_pos trivial]
  have hfuel : s.data.length ≤ (s.data.flatMap escChar ++ '"' :: rest).length := by
    rw [List.length_append]
    have := length_le_flatMap_escChar s.data
    omega
  rw [parseStrBody_escape s.data _ rest hfuel]
  rfl

theorem parsePairKV_dumpPair (p : String × String) (rest : List Char) :
    parsePairKV (dumpPair p ++ rest) = some (p, rest) := by
  rw [dumpPair, List.append_assoc, List.cons_append, List.cons_append]
  simp only [parsePairKV]
  rw [parseJString_escString p.1 (':' :: ' ' :: (escString p.2 ++ rest))]
  simp [parseJString_escString p.2 rest]

theorem length_le_dumpPairsRest (ps : List (String × String)) :
    ps.length ≤ (dumpPairsRest ps).length := by
  induction ps with
  | nil => simp [dumpPairsRest]
  | cons p ps ih =>
    rw [dumpPairsRest]
    simp only [List.length_cons, List.length_append]
    omega

theorem parsePairsRest_dump (ps : List (String × String)) :
    ∀ fuel rest, ps.length ≤ fuel →
      parsePairsRest fuel (dumpPairsRest ps ++ '}' :: rest)
        = some (ps, rest) := by
  induction ps with
  | nil =>
    intro fuel rest _
    rw [dumpPairsRest, List.nil_append, parsePairsRest.eq_def]
    simp
  | cons p ps ih =>
    intro fuel rest hfuel
    cases fuel with
    | zero => simp at hfuel
    | succ f =>
      have hf : ps.length ≤ f := by simpa using hfuel
      rw [dumpPairsRest, List.cons_append, List.cons_append, List.append_assoc]
      rw [parsePairsRest.eq_def]
      simp [parsePairKV_dumpPair p (dumpPairsRest ps ++ '}' :: rest),
        ih f rest hf]

theorem dumpPair_head (p : String × String) (X : List Char) :
    dumpPair p ++ X = '"' :: ((p.1.data.flatMap escChar ++ ['"'])
      ++ ((':' :: ' ' :: escString p.2) ++ X)) := by
  simp [dumpPair, escString]

theorem parseObj_dumpObj (o : Step) (rest : List Char) :
    parseObj (dumpObj o ++ rest) = some (o, rest) := by
  cases o with
  | nil => rfl
  | cons p ps =>
    rw [dumpObj]
    simp only [List.cons_append, List.append_assoc, List.singleton_append,
      List.nil_append]
    simp only [parseObj]
    rw [if_pos trivial]
    rw [dumpPair_head p (dumpPairsRest ps ++ '}' :: rest)]
    have hback := (dumpPair_head p (dumpPairsRest ps ++ '}' :: rest)).symm
    have hfuel : ps.length ≤ (dumpPairsRest ps ++ '}' :: rest).length := by
      rw [List.length_append]
      have := length_le_dumpPairsRest ps
      omega
    simp only [reduceCtorEq, reduceIte]
    rw [hback, parsePairKV_dumpPair p (dumpPairsRest ps ++ '}' :: rest)]
    have hm := parsePairsRest_dump ps
      ((dumpPairsRest ps).length + (rest.length + 1)) rest
      (by have := length_le_dumpPairsRest ps; omega)
    simp [hm]

theorem length_le_dumpObjsRest (os : List Step) :
    os.length ≤ (dumpObjsRest os).length := by
  induction os with
  | nil => simp [dumpObjsRest]
  | cons o os ih =>
    rw [dumpObjsRest]
    simp only [List.length_cons, List.length_append]
    omega

theorem parseObjsRest_dump (os : List Step) :
    ∀ fuel rest, os.length ≤ fuel →
      parseObjsRest fuel (dumpObjsRest os ++ ']' :: rest)
        = some (os, rest) := by
  induction os with
  | nil =>
    intro fuel rest _
    rw [dumpObjsRest, List.nil_append, parseObjsRest.eq_def]
    simp
  | cons o os ih =>
    intro fuel rest hfuel
    cases fuel with
    | zero => simp at hfuel
    | succ f =>
      have hf : os.length ≤ f := by simpa using hfuel
      rw [dumpObjsRest, List.cons_append, List.cons_append, List.append_assoc]
      rw [parseObjsRest.eq_def]
      simp [parseObj_dumpObj o (dumpObjsRest os ++ ']' :: rest),
        ih f rest hf]

theorem dumpObj_head (o : Step) (X : List Char) :
    ∃ t, dumpObj o ++ X = '{' :: t := by
  cases o <;> exact ⟨_, rfl⟩

theorem parseArr_dumpArr (l : List Step) (rest : List Char) :
    parseArr (dumpArr l ++ rest) = some (l, rest) := by
  cases l with
  | nil => rfl
  | cons o os =>
    rw [dumpArr]
    simp only [List.cons_append, List.append_assoc, List.singleton_append,
      List.nil_append]
    simp only [parseArr]
    rw [if_pos trivial]
    obtain ⟨t, ht⟩ := dumpObj_head o (dumpObjsRest os ++ ']' :: rest)
    have hfuel : os.length ≤ (dumpObjsRest os ++ ']' :: rest).length := by
      rw [List.length_append]
      have := length_le_dumpObjsRest os
      omega
    rw [ht]
    simp only [reduceCtorEq, reduceIte]
    rw [← ht, parseObj_dumpObj o (dumpObjsRest os ++ ']' :: rest)]
    have hm := parseObjsRest_dump os
      ((dumpObjsRest os).length + (rest.length + 1)) rest
      (by have := length_le_dumpObjsRest os; omega)
    simp [hm]

theorem jsonLoads_dumps (l : List Step) :
    jsonLoadsSteps (jsonDumpSteps l) = some l := by
  unfold jsonLoadsSteps jsonDumpSteps
  have h := parseArr_dumpArr l []
  rw [List.append_nil] at h
  show (match parseArr (dumpArr l) with
    | some (l, []) => some l
    | _ => none) = some l
  rw [h]

theorem ascii_escString (s : String) : ∀ d ∈ escString s, d.toNat < 128 := by
  intro d hd
  rw [escString] at hd
  rcases List.mem_cons.mp hd with h | h
  · subst h; decide
  · rcases List.mem_append.mp h with h | h
    · obtain ⟨c, _, hc⟩ := List.mem_flatMap.mp h
      exact escChar_ascii c d hc
    · rw [List.mem_singleton] at h
      subst h; decide

theorem ascii_dumpPair (p : String × String) :
    ∀ d ∈ dumpPair p, d.toNat < 128 := by
  intro d hd
  rw [dumpPair] at hd
  rcases List.mem_append.mp hd with h | h
  · exact ascii_escString p.1 d h
  · rcases List.mem_cons.mp h with h | h
    · subst h; decide
    · rcases List.mem_cons.mp h with h | h
      · subst h; decide
      · exact ascii_escString p.2 d h

theorem ascii_dumpPairsRest (ps : List (String × String)) :
    ∀ d ∈ dumpPairsRest ps, d.toNat < 128 := by
  induction ps with
  | nil => intro d hd; cases hd
  | cons p ps ih =>
    intro d hd
    rw [dumpPairsRest] at hd
    rcases List.mem_cons.mp hd with h | h
    · subst h; decide
    · rcases List.mem_cons.mp h with h | h
      · subst h; decide
      · rcases List.mem_append.mp h with h | h
        · exact ascii_dumpPair p d h
        · exact ih d h

theorem ascii_dumpObj (o : Step) : ∀ d ∈ dumpObj o, d.toNat < 128 := by
  intro d hd
  cases o with
  | nil =>
    rcases List.mem_cons.mp hd with h | h
    · subst h; decide
    · rw [List.mem_singleton] at h
      subst h; decide
  | cons p ps =>
    rw [dumpObj] at hd
    rcases List.mem_cons.mp hd with h | h
    · subst h; decide
    · rcases List.mem_append.mp h with h | h
      · rcases List.mem_append.mp h with h | h
        · exact ascii_dumpPair p d h
        · exact ascii_dumpPairsRest ps d h
      · rw [List.mem_singleton] at h
        subst h; decide

theorem ascii_dumpObjsRest (os : List Step) :
    ∀ d ∈ dumpObjsRest os, d.toNat < 128 := by
  induction os with
  | nil => intro d hd; cases hd
  | cons o os ih =>
    intro d hd
    rw [dumpObjsRest] at hd
    rcases List.mem_cons.mp hd with h | h
    · subst h; decide
    · rcases List.mem_cons.mp h with h | h
      · subst h; decide
      · rcases List.mem_append.mp h with h | h
        · exact ascii_dumpObj o d h
        · exact ih d h

theorem ascii_dumps (l : List Step) :
    ∀ d ∈ (jsonDumpSteps l).data, d.toNat < 128 := by
  intro d hd
  show d.toNat < 128
  have hd' : d ∈ dumpArr l := hd
  cases l with
  | nil =>
    rcases List.mem_cons.mp hd' with h | h
    · subst h; decide
    · rw [List.mem_singleton] at h
      subst h; decide
  | cons o os =>
    rw [dumpArr] at hd'
    rcases List.mem_cons.mp hd' with h | h
    · subst h; decide
    · rcases List.mem_append.mp h with h | h
      · rcases List.mem_append.mp h with h | h
        · exact ascii_dumpObj o d h
        · exact ascii_dumpObjsRest os d h
      · rw [List.mem_singleton] at h
        subst h; decide

/-- C8: a non-empty step-script payload, serialized and compressed, then
decompressed and deserialized, equals the original structured input; an
absent or empty payload stores no payload at all. -/
theorem browser_steps_roundtrip (bs : List Step) (hne : bs ≠ []) :
    compress_browser_steps none = none
    ∧ compress_browser_steps (some []) = none
    ∧ ∃ payload, compress_browser_steps (some bs) = some payload
        ∧ (utf8Decode (rleDecompress payload)).map
            (fun cs => jsonLoadsSteps (String.mk cs)) = some (some bs) := by
  refine ⟨rfl, rfl, ?_⟩
  cases bs with
  | nil => exact absurd rfl hne
  | cons b bs' =>
    refine ⟨_, rfl, ?_⟩
    rw [rle_roundtrip]
    rw [show utf8Encode (jsonDumpSteps (b :: bs'))
      = (jsonDumpSteps (b :: bs')).data.flatMap (fun c => utf8Char c.toNat)
      from rfl]
    rw [utf8Decode_ascii _ (ascii_dumps (b :: bs'))]
    show some (jsonLoadsSteps (jsonDumpSteps (b :: bs'))) = some (some (b :: bs'))
    rw [jsonLoads_dumps (b :: bs')]

theorem browser_steps_roundtrip_witness :
    ([[("operation", "click")]] : List Step) ≠ []
    ∧ (compress_browser_steps none = none
      ∧ compress_browser_steps (some []) = none
      ∧ ∃ payload,
          compress_browser_steps (some [[("operation", "click")]])
            = some payload
          ∧ (utf8Decode (rleDecompress payload)).map
              (fun cs => jsonLoadsSteps (String.mk cs))
            = some (some [[("operation", "click")]])) :=
  ⟨by simp, browser_steps_roundtrip [[("operation", "click")]] (by simp)⟩


end Reqlog
